import Mathlib

/-!
# lightweightvk: command submission handles and the queue pool

A shallow embedding of

* `igl/vulkan/VulkanImmediateCommands.h` (`SubmitHandle`, `CommandBufferWrapper`
  and the default member initialisers of `VulkanImmediateCommands`);
* `igl/vulkan/VulkanQueuePool.cpp` (`findQueueDescriptor`, `reserveQueue`,
  `getQueueCreationInfos`);
* `igl/vulkan/Common.cpp` (`getResultFromVkResult`, `setResultFrom`, the two texture
  format tables, `getVulkanSampleCountFlags`);
* `igl/vulkan/VulkanImageView.cpp` and `igl/vulkan/VulkanSampler.cpp` (the destructors);
* `igl/vulkan/VulkanRenderPassBuilder.h` (the data members of the builder).

The submission protocol of `VulkanImmediateCommands` and the methods of
`VulkanRenderPassBuilder` are defined in files that are not among the sources; they are
modelled from the specification, and every such definition says so.

Machine integers are natural numbers; `uint32_t` / `uint64_t` arithmetic is
reduced modulo `2^32` / `2^64` wherever the C++ expression can wrap or truncate.
-/

namespace igl.vulkan

/-! ## VulkanImmediateCommands.h -/

/-- Number of values of a `uint32_t`. -/
def u32 : Nat := 2 ^ 32

/-- Number of values of a `uint64_t`. -/
def u64 : Nat := 2 ^ 64

/-- The constant `VulkanImmediateCommands::kMaxCommandBuffers`. -/
def kMaxCommandBuffers : Nat := 64

/-- The handle value `VK_NULL_HANDLE` of the Vulkan headers. -/
def VK_NULL_HANDLE : Nat := 0

/-- The struct `VulkanImmediateCommands::SubmitHandle`: two `uint32_t` fields, both
default-initialised to `0`. -/
structure SubmitHandle where
  bufferIndex_ : Nat := 0
  submitId_ : Nat := 0
deriving DecidableEq, Repr

namespace SubmitHandle

/-- Both fields of the handle are representable as `uint32_t`. -/
def WellFormed (h : SubmitHandle) : Prop :=
  h.bufferIndex_ < u32 ∧ h.submitId_ < u32

instance (h : SubmitHandle) : Decidable h.WellFormed := by
  unfold WellFormed; infer_instance

/-- The constructor `explicit SubmitHandle(uint64_t handle)`:
`bufferIndex_(uint32_t(handle & 0xffffffff)), submitId_(uint32_t(handle >> 32))`. -/
def ofHandle (handle : Nat) : SubmitHandle where
  bufferIndex_ := (handle &&& 0xffffffff) % u32
  submitId_ := (handle >>> 32) % u32

/-- The condition checked by `IGL_ASSERT(submitId_)` in the body of
`SubmitHandle(uint64_t handle)`. -/
def ofHandleAssert (handle : Nat) : Bool :=
  (ofHandle handle).submitId_ != 0

/-- The method `empty()`: `return submitId_ == 0;`. -/
def empty (h : SubmitHandle) : Bool :=
  h.submitId_ == 0

/-- The method `handle()`: `return (uint64_t(submitId_) << 32) + bufferIndex_;`,
computed in `uint64_t`. -/
def handle (h : SubmitHandle) : Nat :=
  ((h.submitId_ <<< 32) % u64 + h.bufferIndex_) % u64

end SubmitHandle

/-- The struct `VulkanImmediateCommands::CommandBufferWrapper` with its default member
initialisers; native handles are carried as plain numbers. -/
structure CommandBufferWrapper where
  cmdBuf_ : Nat := VK_NULL_HANDLE
  cmdBufAllocated_ : Nat := VK_NULL_HANDLE
  handle_ : SubmitHandle := {}
  fence_ : Nat := VK_NULL_HANDLE
  semaphore_ : Nat := VK_NULL_HANDLE
  isEncoding_ : Bool := false
deriving DecidableEq, Repr

/-- The data members of `VulkanImmediateCommands` that carry the submission protocol,
with the default member initialisers of the class declaration:
`CommandBufferWrapper buffers_[kMaxCommandBuffers]`,
`lastSubmitHandle_ = SubmitHandle()`, `lastSubmitSemaphore_ = VK_NULL_HANDLE`,
`waitSemaphore_ = VK_NULL_HANDLE`, `numAvailableCommandBuffers_ = kMaxCommandBuffers`,
`submitCounter_ = 1`. -/
structure VulkanImmediateCommands where
  buffers_ : List CommandBufferWrapper := List.replicate kMaxCommandBuffers {}
  lastSubmitHandle_ : SubmitHandle := {}
  lastSubmitSemaphore_ : Nat := VK_NULL_HANDLE
  waitSemaphore_ : Nat := VK_NULL_HANDLE
  numAvailableCommandBuffers_ : Nat := kMaxCommandBuffers
  submitCounter_ : Nat := 1
deriving DecidableEq, Repr

namespace VulkanImmediateCommands

/-- The executor state given by the default member initialisers, before any
`acquire` or `submit`. -/
def initial : VulkanImmediateCommands := {}

/-- The method `getLastSubmitHandle()`, the accessor of `lastSubmitHandle_`. -/
def getLastSubmitHandle (s : VulkanImmediateCommands) : SubmitHandle :=
  s.lastSubmitHandle_

end VulkanImmediateCommands

/-! ## VulkanQueuePool.cpp -/

/-- The bit `VK_QUEUE_GRAPHICS_BIT` of `VkQueueFlagBits` (Vulkan headers). -/
def VK_QUEUE_GRAPHICS_BIT : Nat := 0x00000001

/-- The bit `VK_QUEUE_COMPUTE_BIT` of `VkQueueFlagBits` (Vulkan headers). -/
def VK_QUEUE_COMPUTE_BIT : Nat := 0x00000002

/-- The bit `VK_QUEUE_TRANSFER_BIT` of `VkQueueFlagBits` (Vulkan headers). -/
def VK_QUEUE_TRANSFER_BIT : Nat := 0x00000004

/-- The value `VK_STRUCTURE_TYPE_DEVICE_QUEUE_CREATE_INFO` of `VkStructureType`
(Vulkan headers). -/
def VK_STRUCTURE_TYPE_DEVICE_QUEUE_CREATE_INFO : Nat := 2

/-- Modelled from the spec: the header `VulkanQueuePool.h`, which declares the struct
`VulkanQueueDescriptor`, is not among the sources. The fields are the three that
`enumerateQueues` assigns (`queueIndex`, `familyIndex`, `queueFlags`); the spec calls
the descriptor an "immutable value type; comparable and hashable for use in sets", so
two descriptors are the same element of a `std::set` when all three fields agree. -/
structure VulkanQueueDescriptor where
  queueIndex : Nat
  familyIndex : Nat
  queueFlags : Nat
deriving DecidableEq, Repr

/-- Modelled from the spec: the parts of the absent declaration of
`VulkanQueueDescriptor` that `VulkanQueuePool.cpp` relies on, taken as parameters:
the value-initialised descriptor `VulkanQueueDescriptor{}`, the method `isValid()`,
and the strict order under which a `std::set<VulkanQueueDescriptor>` iterates. The
spec calls `{}` "an invalid/empty descriptor", which is `empty_invalid`. -/
structure QueueDescriptorDecl where
  emptyDescriptor : VulkanQueueDescriptor
  isValid : VulkanQueueDescriptor → Bool
  less : VulkanQueueDescriptor → VulkanQueueDescriptor → Bool
  empty_invalid : isValid emptyDescriptor = false

/-- One instance of the declaration: index fields default to `0xFFFFFFFF`, a descriptor
is valid when neither index has that value, and sets iterate by family index, then
queue index, then flags. -/
def indexDecl : QueueDescriptorDecl where
  emptyDescriptor := ⟨0xFFFFFFFF, 0xFFFFFFFF, 0⟩
  isValid d := d.queueIndex != 0xFFFFFFFF && d.familyIndex != 0xFFFFFFFF
  less a b :=
    decide (a.familyIndex < b.familyIndex) ||
      (a.familyIndex == b.familyIndex &&
        (decide (a.queueIndex < b.queueIndex) ||
          (a.queueIndex == b.queueIndex && decide (a.queueFlags < b.queueFlags))))
  empty_invalid := rfl

/-- The operation `std::set::insert`: the set is the list of its elements in iteration
order; an element already present is not inserted again, a new one goes before the
first element that is greater. -/
def setInsert (less : VulkanQueueDescriptor → VulkanQueueDescriptor → Bool)
    (d : VulkanQueueDescriptor) (s : List VulkanQueueDescriptor) :
    List VulkanQueueDescriptor :=
  if d ∈ s then s else (s.takeWhile fun x => !less d x) ++ d :: s.dropWhile fun x => !less d x

/-- The operation `std::set::erase(key)`: the set without `key`, and the number of
elements removed (`0` or `1`). -/
def setErase (d : VulkanQueueDescriptor) (s : List VulkanQueueDescriptor) :
    List VulkanQueueDescriptor × Nat :=
  if d ∈ s then (s.erase d, 1) else (s, 0)

/-- The data members of `VulkanQueuePool`: `availableDescriptors_` and
`reservedDescriptors_`, each a `std::set` listed in iteration order. -/
structure VulkanQueuePool where
  availableDescriptors_ : List VulkanQueueDescriptor
  reservedDescriptors_ : List VulkanQueueDescriptor
deriving DecidableEq, Repr

namespace VulkanQueuePool

/-- The constructor `VulkanQueuePool(std::set<VulkanQueueDescriptor> availableDescriptors)`:
`availableDescriptors_(std::move(availableDescriptors))`, nothing reserved. -/
def ofAvailable (availableDescriptors : List VulkanQueueDescriptor) : VulkanQueuePool where
  availableDescriptors_ := availableDescriptors
  reservedDescriptors_ := []

/-- The lambda `findDedicatedQueue(required, avoid)` inside `findQueueDescriptor(flags)`:
when `flags & required` is non-zero, the first available descriptor with
`(queueFlags & flags) != 0` and `(queueFlags & avoid) == 0`; otherwise `{}`. -/
def findDedicatedQueue (D : QueueDescriptorDecl) (pool : VulkanQueuePool) (flags : Nat)
    (required avoid : Nat) : VulkanQueueDescriptor :=
  if flags &&& required ≠ 0 then
    match pool.availableDescriptors_.find? (fun queueDescriptor =>
        let isSuitable := (queueDescriptor.queueFlags &&& flags) != 0
        let isDedicated := (queueDescriptor.queueFlags &&& avoid) == 0
        isSuitable && isDedicated) with
    | some queueDescriptor => queueDescriptor
    | none => D.emptyDescriptor
  else D.emptyDescriptor

/-- The method `findQueueDescriptor(flags)`: a dedicated compute queue, else a dedicated
transfer queue, else any suitable queue, else `{}`. -/
def findQueueDescriptor (D : QueueDescriptorDecl) (pool : VulkanQueuePool) (flags : Nat) :
    VulkanQueueDescriptor :=
  let compute := findDedicatedQueue D pool flags VK_QUEUE_COMPUTE_BIT VK_QUEUE_GRAPHICS_BIT
  if D.isValid compute then compute
  else
    let transfer := findDedicatedQueue D pool flags VK_QUEUE_TRANSFER_BIT VK_QUEUE_GRAPHICS_BIT
    if D.isValid transfer then transfer
    else
      let anyQueue := findDedicatedQueue D pool flags flags 0
      if D.isValid anyQueue then anyQueue
      else D.emptyDescriptor

/-- The method `reserveQueue(queueDescriptor)`:
`if (availableDescriptors_.erase(queueDescriptor) != 0) reservedDescriptors_.insert(queueDescriptor);`. -/
def reserveQueue (D : QueueDescriptorDecl) (pool : VulkanQueuePool)
    (queueDescriptor : VulkanQueueDescriptor) : VulkanQueuePool :=
  let erased := setErase queueDescriptor pool.availableDescriptors_
  if erased.2 ≠ 0 then
    { availableDescriptors_ := erased.1
      reservedDescriptors_ := setInsert D.less queueDescriptor pool.reservedDescriptors_ }
  else
    { availableDescriptors_ := erased.1
      reservedDescriptors_ := pool.reservedDescriptors_ }

end VulkanQueuePool

/-- The fields of `VkDeviceQueueCreateInfo` that `getQueueCreationInfos` sets;
`pQueuePriorities` is carried as the priority it points to. -/
structure VkDeviceQueueCreateInfo where
  sType : Nat
  queueFamilyIndex : Nat
  queueCount : Nat
  pQueuePriorities : ℚ
deriving DecidableEq, Repr

/-- The statement `queues[family].push_back(queue)` on the
`std::map<uint32_t, std::vector<VulkanQueueDescriptor>>`, listed in ascending key order. -/
def mapPushBack (family : Nat) (queue : VulkanQueueDescriptor) :
    List (Nat × List VulkanQueueDescriptor) → List (Nat × List VulkanQueueDescriptor)
  | [] => [(family, [queue])]
  | (k, v) :: rest =>
    if family < k then (family, [queue]) :: (k, v) :: rest
    else if family = k then (k, v ++ [queue]) :: rest
    else (k, v) :: mapPushBack family queue rest

namespace VulkanQueuePool

/-- The method `getQueueCreationInfos()`: the reserved descriptors grouped by family,
one `VkDeviceQueueCreateInfo` per family with `queuePriority = 1.0f`. -/
def getQueueCreationInfos (pool : VulkanQueuePool) : List VkDeviceQueueCreateInfo :=
  let queues := pool.reservedDescriptors_.foldl
    (fun queues queue => mapPushBack queue.familyIndex queue queues) []
  let queuePriority : ℚ := 1
  queues.map fun entry =>
    { sType := VK_STRUCTURE_TYPE_DEVICE_QUEUE_CREATE_INFO
      queueFamilyIndex := entry.1
      queueCount := entry.2.length % u32
      pQueuePriorities := queuePriority }

end VulkanQueuePool

/-- One call of the public interface of `VulkanQueuePool`. -/
inductive PoolCall where
  | findQueueDescriptor (flags : Nat)
  | reserveQueue (queueDescriptor : VulkanQueueDescriptor)
  | getQueueCreationInfos
deriving DecidableEq, Repr

/-- The value a call returns. -/
inductive PoolReturn where
  | descriptor (d : VulkanQueueDescriptor)
  | nothing
  | infos (qcis : List VkDeviceQueueCreateInfo)
deriving DecidableEq, Repr

namespace VulkanQueuePool

/-- The pool after one call and what the call returned. The methods
`findQueueDescriptor` and `getQueueCreationInfos` are `const`: they leave the data
members as they are. -/
def call (D : QueueDescriptorDecl) (pool : VulkanQueuePool) :
    PoolCall → VulkanQueuePool × PoolReturn
  | .findQueueDescriptor flags => (pool, .descriptor (pool.findQueueDescriptor D flags))
  | .reserveQueue d => (pool.reserveQueue D d, .nothing)
  | .getQueueCreationInfos => (pool, .infos pool.getQueueCreationInfos)

/-- The pool after a sequence of calls. -/
def run (D : QueueDescriptorDecl) (pool : VulkanQueuePool) (calls : List PoolCall) :
    VulkanQueuePool :=
  calls.foldl (fun p c => (p.call D c).1) pool

end VulkanQueuePool

/-- The invariant of a pool built from the set `initial`: no descriptor is listed twice
as available, none is both available and reserved, and the two sets together are
`initial`. -/
def PoolInv (initial : List VulkanQueueDescriptor) (pool : VulkanQueuePool) : Prop :=
  pool.availableDescriptors_.Nodup ∧
    (∀ x, x ∈ pool.availableDescriptors_ → x ∉ pool.reservedDescriptors_) ∧
    (∀ x, x ∈ pool.availableDescriptors_ ∨ x ∈ pool.reservedDescriptors_ ↔ x ∈ initial)

/-! ## Common.cpp -/

/-- The value `VK_SUCCESS` of `VkResult` (Vulkan headers). -/
def VK_SUCCESS : Int := 0

/-- The value `VK_ERROR_OUT_OF_HOST_MEMORY` of `VkResult` (Vulkan headers). -/
def VK_ERROR_OUT_OF_HOST_MEMORY : Int := -1

/-- The value `VK_ERROR_OUT_OF_DEVICE_MEMORY` of `VkResult` (Vulkan headers). -/
def VK_ERROR_OUT_OF_DEVICE_MEMORY : Int := -2

/-- The value `VK_ERROR_DEVICE_LOST` of `VkResult` (Vulkan headers). -/
def VK_ERROR_DEVICE_LOST : Int := -4

/-- The value `VK_ERROR_LAYER_NOT_PRESENT` of `VkResult` (Vulkan headers). -/
def VK_ERROR_LAYER_NOT_PRESENT : Int := -6

/-- The value `VK_ERROR_EXTENSION_NOT_PRESENT` of `VkResult` (Vulkan headers). -/
def VK_ERROR_EXTENSION_NOT_PRESENT : Int := -7

/-- The value `VK_ERROR_FEATURE_NOT_PRESENT` of `VkResult` (Vulkan headers). -/
def VK_ERROR_FEATURE_NOT_PRESENT : Int := -8

/-- The value `VK_ERROR_INCOMPATIBLE_DRIVER` of `VkResult` (Vulkan headers). -/
def VK_ERROR_INCOMPATIBLE_DRIVER : Int := -9

/-- The value `VK_ERROR_TOO_MANY_OBJECTS` of `VkResult` (Vulkan headers). -/
def VK_ERROR_TOO_MANY_OBJECTS : Int := -10

/-- The value `VK_ERROR_FORMAT_NOT_SUPPORTED` of `VkResult` (Vulkan headers). -/
def VK_ERROR_FORMAT_NOT_SUPPORTED : Int := -11

/-- The value `VK_ERROR_OUT_OF_POOL_MEMORY` of `VkResult` (Vulkan headers). -/
def VK_ERROR_OUT_OF_POOL_MEMORY : Int := -1000069000

/-- Modelled from the spec: `igl/Common.h`, which declares `igl::Result`, is not among
the sources. The codes are `Ok`, the code of a default-constructed `Result()`, and the
four codes that `getResultFromVkResult` assigns. -/
inductive Result.Code where
  | Ok
  | ArgumentOutOfRange
  | RuntimeError
  | Unimplemented
  | Unsupported
deriving DecidableEq, Repr

/-- Modelled from the spec: the struct `igl::Result` of the absent `igl/Common.h`, the
"structured result" a driver failure is mapped into: a code and a message; `Result()`
is the success value, with code `Ok` and no message. -/
structure Result where
  code : Result.Code := Result.Code.Ok
  message : String := ""
deriving DecidableEq, Repr

/-- One instance of the helper `ivkGetVulkanResultString` (declared in
`VulkanHelpers.h`, not among the sources): every `VkResult` has the empty message. -/
def noResultString : Int → String := fun _ => ""

/-- The function `getResultFromVkResult(result)`; the helper `ivkGetVulkanResultString`
is a parameter. -/
def getResultFromVkResult (ivkGetVulkanResultString : Int → String) (result : Int) : Result :=
  if result = VK_SUCCESS then {}
  else
    let res : Result := ⟨Result.Code.RuntimeError, ivkGetVulkanResultString result⟩
    if result = VK_ERROR_LAYER_NOT_PRESENT ∨ result = VK_ERROR_EXTENSION_NOT_PRESENT ∨
        result = VK_ERROR_FEATURE_NOT_PRESENT then
      { res with code := Result.Code.Unimplemented }
    else if result = VK_ERROR_INCOMPATIBLE_DRIVER ∨ result = VK_ERROR_FORMAT_NOT_SUPPORTED then
      { res with code := Result.Code.Unsupported }
    else if result = VK_ERROR_OUT_OF_HOST_MEMORY ∨ result = VK_ERROR_OUT_OF_DEVICE_MEMORY ∨
        result = VK_ERROR_OUT_OF_POOL_MEMORY ∨ result = VK_ERROR_TOO_MANY_OBJECTS then
      { res with code := Result.Code.ArgumentOutOfRange }
    else res

/-- The function `setResultFrom(outResult, result)`. The pointer `outResult` is `none`
when null and otherwise the `Result` it points to; the value is what it points to after
the call. -/
def setResultFrom (ivkGetVulkanResultString : Int → String) (outResult : Option Result)
    (result : Int) : Option Result :=
  match outResult with
  | none => none
  | some _ => some (getResultFromVkResult ivkGetVulkanResultString result)

/-- The value `VK_SAMPLE_COUNT_1_BIT` of `VkSampleCountFlagBits` (Vulkan headers). -/
def VK_SAMPLE_COUNT_1_BIT : Nat := 0x00000001

/-- The value `VK_SAMPLE_COUNT_2_BIT` of `VkSampleCountFlagBits` (Vulkan headers). -/
def VK_SAMPLE_COUNT_2_BIT : Nat := 0x00000002

/-- The value `VK_SAMPLE_COUNT_4_BIT` of `VkSampleCountFlagBits` (Vulkan headers). -/
def VK_SAMPLE_COUNT_4_BIT : Nat := 0x00000004

/-- The value `VK_SAMPLE_COUNT_8_BIT` of `VkSampleCountFlagBits` (Vulkan headers). -/
def VK_SAMPLE_COUNT_8_BIT : Nat := 0x00000008

/-- The value `VK_SAMPLE_COUNT_16_BIT` of `VkSampleCountFlagBits` (Vulkan headers). -/
def VK_SAMPLE_COUNT_16_BIT : Nat := 0x00000010

/-- The value `VK_SAMPLE_COUNT_32_BIT` of `VkSampleCountFlagBits` (Vulkan headers). -/
def VK_SAMPLE_COUNT_32_BIT : Nat := 0x00000020

/-- The value `VK_SAMPLE_COUNT_64_BIT` of `VkSampleCountFlagBits` (Vulkan headers). -/
def VK_SAMPLE_COUNT_64_BIT : Nat := 0x00000040

/-- The function `getVulkanSampleCountFlags(numSamples)`. -/
def getVulkanSampleCountFlags (numSamples : Nat) : Nat :=
  if numSamples ≤ 1 then VK_SAMPLE_COUNT_1_BIT
  else if numSamples ≤ 2 then VK_SAMPLE_COUNT_2_BIT
  else if numSamples ≤ 4 then VK_SAMPLE_COUNT_4_BIT
  else if numSamples ≤ 8 then VK_SAMPLE_COUNT_8_BIT
  else if numSamples ≤ 16 then VK_SAMPLE_COUNT_16_BIT
  else if numSamples ≤ 32 then VK_SAMPLE_COUNT_32_BIT
  else VK_SAMPLE_COUNT_64_BIT

/-- Modelled from the spec: the header declaring `igl::TextureFormat` is not among the
sources. The enumerators are those that `textureFormatToVkFormat` names; `other` stands
for any further enumerator, which the `switch` sends to its `default:` branch. -/
inductive TextureFormat where
  | Invalid
  | A_UNorm8
  | R_UNorm8
  | R_UNorm16
  | R_F16
  | R_UInt16
  | B5G5R5A1_UNorm
  | B5G6R5_UNorm
  | ABGR_UNorm4
  | RG_UNorm8
  | RG_UNorm16
  | BGRA_UNorm8
  | BGRA_UNorm8_Rev
  | RGBA_UNorm8
  | RGBA_SRGB
  | BGRA_SRGB
  | RG_F16
  | RG_UInt16
  | RGB10_A2_UNorm_Rev
  | RGB10_A2_Uint_Rev
  | BGR10_A2_Unorm
  | R_F32
  | RGBA_F16
  | RGBA_UInt32
  | RGBA_F32
  | RGB8_ETC1
  | RGB8_ETC2
  | SRGB8_ETC2
  | RGB8_Punchthrough_A1_ETC2
  | SRGB8_Punchthrough_A1_ETC2
  | RGBA8_EAC_ETC2
  | SRGB8_A8_EAC_ETC2
  | RG_EAC_UNorm
  | RG_EAC_SNorm
  | R_EAC_UNorm
  | R_EAC_SNorm
  | RGBA_BC7_UNORM_4x4
  | Z_UNorm16
  | Z_UNorm24
  | Z_UNorm32
  | S8_UInt_Z24_UNorm
  | other (value : Nat)
deriving DecidableEq, Repr

/-- The enumeration `VkFormat` of the Vulkan headers: the enumerators that
`textureFormatToVkFormat` and `vkFormatToTextureFormat` name; `other` stands for any
further enumerator. -/
inductive VkFormat where
  | VK_FORMAT_UNDEFINED
  | VK_FORMAT_R8_UNORM
  | VK_FORMAT_R16_UNORM
  | VK_FORMAT_R16_SFLOAT
  | VK_FORMAT_R16_UINT
  | VK_FORMAT_B5G5R5A1_UNORM_PACK16
  | VK_FORMAT_B5G6R5_UNORM_PACK16
  | VK_FORMAT_B4G4R4A4_UNORM_PACK16
  | VK_FORMAT_R8G8_UNORM
  | VK_FORMAT_B8G8R8A8_UNORM
  | VK_FORMAT_R8G8B8A8_UNORM
  | VK_FORMAT_R8G8B8A8_SRGB
  | VK_FORMAT_B8G8R8A8_SRGB
  | VK_FORMAT_R16G16_UNORM
  | VK_FORMAT_R16G16_SFLOAT
  | VK_FORMAT_R16G16_UINT
  | VK_FORMAT_A2R10G10B10_UNORM_PACK32
  | VK_FORMAT_A2R10G10B10_UINT_PACK32
  | VK_FORMAT_A2B10G10R10_UNORM_PACK32
  | VK_FORMAT_R32_SFLOAT
  | VK_FORMAT_R16G16B16A16_SFLOAT
  | VK_FORMAT_R32G32B32A32_UINT
  | VK_FORMAT_R32G32B32A32_SFLOAT
  | VK_FORMAT_ASTC_4x4_SRGB_BLOCK
  | VK_FORMAT_ETC2_R8G8B8_UNORM_BLOCK
  | VK_FORMAT_ETC2_R8G8B8_SRGB_BLOCK
  | VK_FORMAT_ETC2_R8G8B8A1_UNORM_BLOCK
  | VK_FORMAT_ETC2_R8G8B8A1_SRGB_BLOCK
  | VK_FORMAT_EAC_R11G11_UNORM_BLOCK
  | VK_FORMAT_EAC_R11G11_SNORM_BLOCK
  | VK_FORMAT_EAC_R11_UNORM_BLOCK
  | VK_FORMAT_EAC_R11_SNORM_BLOCK
  | VK_FORMAT_D16_UNORM
  | VK_FORMAT_BC7_UNORM_BLOCK
  | VK_FORMAT_X8_D24_UNORM_PACK32
  | VK_FORMAT_D24_UNORM_S8_UINT
  | VK_FORMAT_D32_SFLOAT
  | other (value : Nat)
deriving DecidableEq, Repr

/-- The outcome of a conversion `switch`: `ok v` when a `case` returns `v`;
`notHandled v` when the `default:` branch is taken, where `IGL_ASSERT_MSG(false, ...)`
fires and `v` is what the function returns if assertions are compiled out. -/
inductive Checked (α : Type) where
  | ok (value : α)
  | notHandled (value : α)
deriving DecidableEq, Repr

/-- The value the function returns, asserted or not. -/
def Checked.value {α : Type} : Checked α → α
  | .ok v => v
  | .notHandled v => v

/-- The function `textureFormatToVkFormat(format)`. -/
def textureFormatToVkFormat : TextureFormat → Checked VkFormat
  | .Invalid => .ok .VK_FORMAT_UNDEFINED
  | .A_UNorm8 => .ok .VK_FORMAT_UNDEFINED
  | .R_UNorm8 => .ok .VK_FORMAT_R8_UNORM
  | .R_UNorm16 => .ok .VK_FORMAT_R16_UNORM
  | .R_F16 => .ok .VK_FORMAT_R16_SFLOAT
  | .R_UInt16 => .ok .VK_FORMAT_R16_UINT
  | .B5G5R5A1_UNorm => .ok .VK_FORMAT_B5G5R5A1_UNORM_PACK16
  | .B5G6R5_UNorm => .ok .VK_FORMAT_B5G6R5_UNORM_PACK16
  | .ABGR_UNorm4 => .ok .VK_FORMAT_B4G4R4A4_UNORM_PACK16
  | .RG_UNorm8 => .ok .VK_FORMAT_R8G8_UNORM
  | .RG_UNorm16 => .ok .VK_FORMAT_R16G16_UNORM
  | .BGRA_UNorm8 => .ok .VK_FORMAT_B8G8R8A8_UNORM
  | .BGRA_UNorm8_Rev => .ok .VK_FORMAT_UNDEFINED
  | .RGBA_UNorm8 => .ok .VK_FORMAT_R8G8B8A8_UNORM
  | .RGBA_SRGB => .ok .VK_FORMAT_R8G8B8A8_SRGB
  | .BGRA_SRGB => .ok .VK_FORMAT_B8G8R8A8_SRGB
  | .RG_F16 => .ok .VK_FORMAT_R16G16_SFLOAT
  | .RG_UInt16 => .ok .VK_FORMAT_R16G16_UINT
  | .RGB10_A2_UNorm_Rev => .ok .VK_FORMAT_A2R10G10B10_UNORM_PACK32
  | .RGB10_A2_Uint_Rev => .ok .VK_FORMAT_A2R10G10B10_UINT_PACK32
  | .BGR10_A2_Unorm => .ok .VK_FORMAT_A2B10G10R10_UNORM_PACK32
  | .R_F32 => .ok .VK_FORMAT_R32_SFLOAT
  | .RGBA_F16 => .ok .VK_FORMAT_R16G16B16A16_SFLOAT
  | .RGBA_UInt32 => .ok .VK_FORMAT_R32G32B32A32_UINT
  | .RGBA_F32 => .ok .VK_FORMAT_R32G32B32A32_SFLOAT
  | .RGB8_ETC1 => .ok .VK_FORMAT_UNDEFINED
  | .RGB8_ETC2 => .ok .VK_FORMAT_ETC2_R8G8B8_UNORM_BLOCK
  | .SRGB8_ETC2 => .ok .VK_FORMAT_ETC2_R8G8B8_SRGB_BLOCK
  | .RGB8_Punchthrough_A1_ETC2 => .ok .VK_FORMAT_ETC2_R8G8B8A1_UNORM_BLOCK
  | .SRGB8_Punchthrough_A1_ETC2 => .ok .VK_FORMAT_ETC2_R8G8B8A1_SRGB_BLOCK
  | .RGBA8_EAC_ETC2 => .ok .VK_FORMAT_UNDEFINED
  | .SRGB8_A8_EAC_ETC2 => .ok .VK_FORMAT_UNDEFINED
  | .RG_EAC_UNorm => .ok .VK_FORMAT_EAC_R11G11_UNORM_BLOCK
  | .RG_EAC_SNorm => .ok .VK_FORMAT_EAC_R11G11_SNORM_BLOCK
  | .R_EAC_UNorm => .ok .VK_FORMAT_EAC_R11_UNORM_BLOCK
  | .R_EAC_SNorm => .ok .VK_FORMAT_EAC_R11_SNORM_BLOCK
  | .RGBA_BC7_UNORM_4x4 => .ok .VK_FORMAT_BC7_UNORM_BLOCK
  | .Z_UNorm16 => .ok .VK_FORMAT_D16_UNORM
  | .Z_UNorm24 => .ok .VK_FORMAT_D24_UNORM_S8_UINT
  | .Z_UNorm32 => .ok .VK_FORMAT_D32_SFLOAT
  | .S8_UInt_Z24_UNorm => .ok .VK_FORMAT_D24_UNORM_S8_UINT
  | .other _ => .notHandled .VK_FORMAT_UNDEFINED

/-- The function `vkFormatToTextureFormat(format)`. -/
def vkFormatToTextureFormat : VkFormat → Checked TextureFormat
  | .VK_FORMAT_UNDEFINED => .ok .Invalid
  | .VK_FORMAT_R8_UNORM => .ok .R_UNorm8
  | .VK_FORMAT_R16_UNORM => .ok .R_UNorm16
  | .VK_FORMAT_R16_SFLOAT => .ok .R_F16
  | .VK_FORMAT_R16_UINT => .ok .R_UInt16
  | .VK_FORMAT_B5G5R5A1_UNORM_PACK16 => .ok .B5G5R5A1_UNorm
  | .VK_FORMAT_B5G6R5_UNORM_PACK16 => .ok .B5G6R5_UNorm
  | .VK_FORMAT_B4G4R4A4_UNORM_PACK16 => .ok .ABGR_UNorm4
  | .VK_FORMAT_R8G8_UNORM => .ok .RG_UNorm8
  | .VK_FORMAT_B8G8R8A8_UNORM => .ok .BGRA_UNorm8
  | .VK_FORMAT_R8G8B8A8_UNORM => .ok .RGBA_UNorm8
  | .VK_FORMAT_R8G8B8A8_SRGB => .ok .RGBA_SRGB
  | .VK_FORMAT_B8G8R8A8_SRGB => .ok .BGRA_SRGB
  | .VK_FORMAT_R16G16_UNORM => .ok .RG_UNorm16
  | .VK_FORMAT_R16G16_SFLOAT => .ok .RG_F16
  | .VK_FORMAT_R16G16_UINT => .ok .RG_UInt16
  | .VK_FORMAT_A2R10G10B10_UNORM_PACK32 => .ok .RGB10_A2_UNorm_Rev
  | .VK_FORMAT_A2R10G10B10_UINT_PACK32 => .ok .RGB10_A2_Uint_Rev
  | .VK_FORMAT_A2B10G10R10_UNORM_PACK32 => .ok .BGR10_A2_Unorm
  | .VK_FORMAT_R32_SFLOAT => .ok .R_F32
  | .VK_FORMAT_R16G16B16A16_SFLOAT => .ok .RGBA_F16
  | .VK_FORMAT_R32G32B32A32_UINT => .ok .RGBA_UInt32
  | .VK_FORMAT_R32G32B32A32_SFLOAT => .ok .RGBA_F32
  | .VK_FORMAT_ASTC_4x4_SRGB_BLOCK => .ok .RGB8_ETC2
  | .VK_FORMAT_ETC2_R8G8B8_UNORM_BLOCK => .ok .RGB8_ETC2
  | .VK_FORMAT_ETC2_R8G8B8_SRGB_BLOCK => .ok .SRGB8_ETC2
  | .VK_FORMAT_ETC2_R8G8B8A1_UNORM_BLOCK => .ok .RGB8_Punchthrough_A1_ETC2
  | .VK_FORMAT_ETC2_R8G8B8A1_SRGB_BLOCK => .ok .SRGB8_Punchthrough_A1_ETC2
  | .VK_FORMAT_EAC_R11G11_UNORM_BLOCK => .ok .RG_EAC_UNorm
  | .VK_FORMAT_EAC_R11G11_SNORM_BLOCK => .ok .RG_EAC_SNorm
  | .VK_FORMAT_EAC_R11_UNORM_BLOCK => .ok .R_EAC_UNorm
  | .VK_FORMAT_EAC_R11_SNORM_BLOCK => .ok .R_EAC_SNorm
  | .VK_FORMAT_D16_UNORM => .ok .Z_UNorm16
  | .VK_FORMAT_BC7_UNORM_BLOCK => .ok .RGBA_BC7_UNORM_4x4
  | .VK_FORMAT_X8_D24_UNORM_PACK32 => .ok .Z_UNorm24
  | .VK_FORMAT_D24_UNORM_S8_UINT => .ok .S8_UInt_Z24_UNorm
  | .VK_FORMAT_D32_SFLOAT => .ok .Z_UNorm32
  | .other _ => .notHandled .Invalid

/-! ## VulkanImageView.cpp and VulkanSampler.cpp -/

/-- A call of the Vulkan API with its arguments; `pAllocator` is `none` for `nullptr`. -/
inductive NativeCall where
  | vkDestroyImageView (device imageView : Nat) (pAllocator : Option Nat)
  | vkDestroySampler (device sampler : Nat) (pAllocator : Option Nat)
deriving DecidableEq, Repr

/-- One step of a function body that is visible outside the object: a Vulkan call made
directly, or a call `ctx_.deferredTask(task)`. The task, a `std::packaged_task<void()>`
around a lambda with by-value captures, is carried as the Vulkan calls its body makes
when it is run. -/
inductive Effect where
  | native (call : NativeCall)
  | deferredTask (task : List NativeCall)
deriving DecidableEq, Repr

/-- The Vulkan calls a function body makes directly. -/
def Effect.nativeCalls : List Effect → List NativeCall
  | [] => []
  | .native c :: rest => c :: Effect.nativeCalls rest
  | .deferredTask _ :: rest => Effect.nativeCalls rest

/-- The tasks a function body hands to `ctx_.deferredTask`, in order. -/
def Effect.deferredTasks : List Effect → List (List NativeCall)
  | [] => []
  | .native _ :: rest => Effect.deferredTasks rest
  | .deferredTask t :: rest => t :: Effect.deferredTasks rest

/-- The data members of `lvk::vulkan::VulkanImageView` that its destructor reads. -/
structure VulkanImageView where
  device_ : Nat
  vkImageView_ : Nat
deriving DecidableEq, Repr

/-- The destructor `VulkanImageView::~VulkanImageView()`:
`ctx_.deferredTask(std::packaged_task<void()>([device = device_, imageView = vkImageView_]()`
`{ vkDestroyImageView(device, imageView, nullptr); }));`
(the profiler macro before it records nothing about the object). -/
def VulkanImageView.destructor (self : VulkanImageView) : List Effect :=
  [Effect.deferredTask [NativeCall.vkDestroyImageView self.device_ self.vkImageView_ none]]

/-- The data members of `lvk::vulkan::VulkanSampler` that its destructor reads. -/
structure VulkanSampler where
  device_ : Nat
  vkSampler_ : Nat
deriving DecidableEq, Repr

/-- The destructor `VulkanSampler::~VulkanSampler()`:
`ctx_.deferredTask(std::packaged_task<void()>([device = device_, sampler = vkSampler_]()`
`{ vkDestroySampler(device, sampler, nullptr); }));`. -/
def VulkanSampler.destructor (self : VulkanSampler) : List Effect :=
  [Effect.deferredTask [NativeCall.vkDestroySampler self.device_ self.vkSampler_ none]]

/-! ## VulkanImmediateCommands: the submission protocol -/

/-- Modelled from the spec: `VulkanImmediateCommands.cpp`, which defines `acquire` and
`submit`, is not among the sources. The executor is the data members of the class
declaration together with what the driver holds: the slots that are "submitted and
unfinished". -/
structure Executor where
  self : VulkanImmediateCommands
  unfinished : List Nat
deriving DecidableEq, Repr

/-- One event on an executor: a call of `acquire()`, a call of `submit` on the slot with
the given index, or the completion on the GPU of the work submitted from a slot. -/
inductive ExecutorEvent where
  | acquire
  | submit (slot : Nat)
  | completed (slot : Nat)
deriving DecidableEq, Repr

/-- What an event gives back to the caller: the slot `acquire()` returns, `blocked` when
`acquire()` finds no free slot and waits, the handle `submit` returns, the usage error
of `submit` on a slot that is not recording, or nothing. -/
inductive ExecutorReturn where
  | slot (index : Nat)
  | blocked
  | handle (h : SubmitHandle)
  | usageError
  | nothing
deriving DecidableEq, Repr

namespace Executor

/-- The executor before any `acquire` or `submit`. -/
def initial : Executor where
  self := VulkanImmediateCommands.initial
  unfinished := []

/-- Modelled from the spec: a slot is free when it is neither "being recorded" nor
"submitted and unfinished". -/
def isFree (e : Executor) (slot : Nat) : Bool :=
  match e.self.buffers_[slot]? with
  | some w => !w.isEncoding_ && !e.unfinished.contains slot
  | none => false

/-- Modelled from the spec: `acquire()` "returns the slot to record into", a free slot
that from then on is being recorded; with no free slot it blocks until one completes,
which leaves the executor as it is. -/
def acquire (e : Executor) : Executor × ExecutorReturn :=
  match (List.range e.self.buffers_.length).find? e.isFree with
  | none => (e, ExecutorReturn.blocked)
  | some slot =>
    match e.self.buffers_[slot]? with
    | none => (e, ExecutorReturn.blocked)
    | some w =>
      ({ e with
          self := { e.self with
            buffers_ := e.self.buffers_.set slot { w with isEncoding_ := true }
            numAvailableCommandBuffers_ :=
              (e.self.numAvailableCommandBuffers_ + u32 - 1) % u32 } },
        ExecutorReturn.slot slot)

/-- Modelled from the spec: the "incremented global counter". The counter is the
`uint32_t submitCounter_` of the class declaration and "is never zero for a valid
handle", so an increment that wraps around skips the value 0. -/
def nextCounter (submitCounter : Nat) : Nat :=
  if (submitCounter + 1) % u32 = 0 then 1 else (submitCounter + 1) % u32

/-- Modelled from the spec: `submit(slot)` "requires the slot to currently be in the
recording state (error otherwise)", "ends recording, assigns the next Submit Handle
(slot index + incremented global counter)", consumes the wait semaphore, signals the
slot's own semaphore and "returns the Submit Handle"; the slot is then submitted and
unfinished. -/
def submit (e : Executor) (slot : Nat) : Executor × ExecutorReturn :=
  match e.self.buffers_[slot]? with
  | none => (e, ExecutorReturn.usageError)
  | some w =>
    if w.isEncoding_ then
      let handle : SubmitHandle := ⟨slot % u32, e.self.submitCounter_⟩
      ({ self := { e.self with
            buffers_ := e.self.buffers_.set slot
              { w with isEncoding_ := false, handle_ := handle }
            lastSubmitHandle_ := handle
            lastSubmitSemaphore_ := w.semaphore_
            waitSemaphore_ := VK_NULL_HANDLE
            submitCounter_ := nextCounter e.self.submitCounter_ }
         unfinished := slot :: e.unfinished },
        ExecutorReturn.handle handle)
    else (e, ExecutorReturn.usageError)

/-- Modelled from the spec: the work submitted from a slot completes and the slot
becomes available again ("recording → submitted → completed → available"). -/
def completed (e : Executor) (slot : Nat) : Executor × ExecutorReturn :=
  if slot ∈ e.unfinished then
    ({ self := { e.self with
          numAvailableCommandBuffers_ := (e.self.numAvailableCommandBuffers_ + 1) % u32 }
       unfinished := e.unfinished.erase slot },
      ExecutorReturn.nothing)
  else (e, ExecutorReturn.nothing)

/-- The executor after one event and what the event gave back. -/
def step (e : Executor) : ExecutorEvent → Executor × ExecutorReturn
  | .acquire => e.acquire
  | .submit slot => e.submit slot
  | .completed slot => e.completed slot

/-- The handles returned so far, extended by what one event gave back. -/
def record (handles : List SubmitHandle) : ExecutorReturn → List SubmitHandle
  | .handle h => handles ++ [h]
  | _ => handles

/-- The executor after a sequence of events, with the handles that the `submit` calls
returned, in the order in which they were returned. -/
def runFrom (e : Executor) (handles : List SubmitHandle) :
    List ExecutorEvent → Executor × List SubmitHandle
  | [] => (e, handles)
  | ev :: rest => runFrom (e.step ev).1 (record handles (e.step ev).2) rest

/-- A sequence of events on a fresh executor. -/
def run (events : List ExecutorEvent) : Executor × List SubmitHandle :=
  runFrom initial [] events

/-- The method `getLastSubmitHandle()` on the executor. -/
def getLastSubmitHandle (e : Executor) : SubmitHandle :=
  e.self.getLastSubmitHandle

end Executor

/-- The event sequence of `n` rounds of acquire, submit and completion on slot 0. -/
def submitRounds : Nat → List ExecutorEvent
  | 0 => []
  | n + 1 => submitRounds n ++
      [ExecutorEvent.acquire, ExecutorEvent.submit 0, ExecutorEvent.completed 0]

/-- The relation between an executor and the handles its `submit` calls have returned:
the counter runs through `1, ..., 2^32 - 1` and starts again at 1; the `k`-th handle
(from 0) carries the `k`-th value of that cycle; and `lastSubmitHandle_` is the last
handle returned, or the default handle when there is none. -/
def SubmitInv (e : Executor) (handles : List SubmitHandle) : Prop :=
  e.self.submitCounter_ = handles.length % (u32 - 1) + 1 ∧
    handles.map (fun h => h.submitId_) =
      (List.range handles.length).map (fun k => k % (u32 - 1) + 1) ∧
    e.self.lastSubmitHandle_ = handles.getLast?.getD {}

/-! ## VulkanRenderPassBuilder.h -/

/-- The value `VK_IMAGE_LAYOUT_UNDEFINED` of `VkImageLayout` (Vulkan headers). -/
def VK_IMAGE_LAYOUT_UNDEFINED : Nat := 0

/-- The value `VK_IMAGE_LAYOUT_COLOR_ATTACHMENT_OPTIMAL` of `VkImageLayout` (Vulkan
headers). -/
def VK_IMAGE_LAYOUT_COLOR_ATTACHMENT_OPTIMAL : Nat := 2

/-- The value `VK_IMAGE_LAYOUT_DEPTH_STENCIL_ATTACHMENT_OPTIMAL` of `VkImageLayout`
(Vulkan headers). -/
def VK_IMAGE_LAYOUT_DEPTH_STENCIL_ATTACHMENT_OPTIMAL : Nat := 3

/-- Modelled from the spec: the fields of an attachment description that the builder
records, "per attachment: target format, load/store behavior, initial/final layout, and
sample count". -/
structure VkAttachmentDescription where
  format : VkFormat
  samples : Nat
  loadOp : Nat
  storeOp : Nat
  initialLayout : Nat
  finalLayout : Nat
deriving DecidableEq, Repr

/-- The struct `VkAttachmentReference` of the Vulkan headers: the index of an attachment
and the layout it is used in; `{}` is index 0 with `VK_IMAGE_LAYOUT_UNDEFINED`. -/
structure VkAttachmentReference where
  attachment : Nat := 0
  layout : Nat := VK_IMAGE_LAYOUT_UNDEFINED
deriving DecidableEq, Repr

/-- Modelled from the spec: `operator==(VkAttachmentDescription, VkAttachmentDescription)`,
declared in the header and defined in the absent `VulkanRenderPassBuilder.cpp`: "every
attachment field" matches. -/
def VkAttachmentDescription.eq (a b : VkAttachmentDescription) : Bool :=
  a.format == b.format && a.samples == b.samples && a.loadOp == b.loadOp &&
    a.storeOp == b.storeOp && a.initialLayout == b.initialLayout &&
    a.finalLayout == b.finalLayout

/-- Modelled from the spec: `operator==(VkAttachmentReference, VkAttachmentReference)`,
declared in the header and defined in the absent `VulkanRenderPassBuilder.cpp`. -/
def VkAttachmentReference.eq (a b : VkAttachmentReference) : Bool :=
  a.attachment == b.attachment && a.layout == b.layout

/-- The comparison `operator==` of two `std::vector`s: same size and equal elements at
every position. -/
def vectorEq {α : Type} (eq : α → α → Bool) : List α → List α → Bool
  | [], [] => true
  | a :: as, b :: bs => eq a b && vectorEq eq as bs
  | _, _ => false

/-- The data members of `VulkanRenderPassBuilder`, with the default member initialisers
of the class declaration. -/
structure VulkanRenderPassBuilder where
  attachments_ : List VkAttachmentDescription := []
  refsColor_ : List VkAttachmentReference := []
  refsColorResolve_ : List VkAttachmentReference := []
  refDepth_ : VkAttachmentReference := {}
  refDepthResolve_ : VkAttachmentReference := {}
deriving DecidableEq, Repr

/-- One call of a builder method, with every argument written out (the declaration
gives defaults for the layouts and the sample count). -/
inductive AddCall where
  | addColor (format : VkFormat)
      (loadOp storeOp initialLayout finalLayout samples : Nat)
  | addColorResolve (format : VkFormat) (loadOp storeOp initialLayout finalLayout : Nat)
  | addDepth (format : VkFormat)
      (loadOp storeOp initialLayout finalLayout samples : Nat)
  | addDepthResolve (format : VkFormat) (loadOp storeOp initialLayout finalLayout : Nat)
deriving DecidableEq, Repr

/-- Modelled from the spec: the parts of `HashFunction` that the spec leaves open, taken
as parameters: how two 64-bit values are combined and which number stands for a
`VkFormat`. -/
structure HashDecl where
  combine : Nat → Nat → Nat
  formatValue : VkFormat → Nat

/-- One instance of the hash declaration: values are combined by exclusive or; a format
that the tables do not list counts with its raw value, a listed one with 0. -/
def xorHash : HashDecl where
  combine a b := a ^^^ b
  formatValue f := match f with
    | .other v => v
    | _ => 0

namespace VulkanRenderPassBuilder

/-- Modelled from the spec: `addColor` appends "an attachment description and a subpass
reference" to the colour attachments. -/
def addColor (b : VulkanRenderPassBuilder) (format : VkFormat)
    (loadOp storeOp initialLayout finalLayout samples : Nat) : VulkanRenderPassBuilder :=
  { b with
    refsColor_ := b.refsColor_ ++
      [⟨b.attachments_.length, VK_IMAGE_LAYOUT_COLOR_ATTACHMENT_OPTIMAL⟩]
    attachments_ := b.attachments_ ++
      [⟨format, samples, loadOp, storeOp, initialLayout, finalLayout⟩] }

/-- Modelled from the spec: `addColorResolve` appends an attachment description, with a
single sample, and a subpass reference to the colour resolve attachments. -/
def addColorResolve (b : VulkanRenderPassBuilder) (format : VkFormat)
    (loadOp storeOp initialLayout finalLayout : Nat) : VulkanRenderPassBuilder :=
  { b with
    refsColorResolve_ := b.refsColorResolve_ ++
      [⟨b.attachments_.length, VK_IMAGE_LAYOUT_COLOR_ATTACHMENT_OPTIMAL⟩]
    attachments_ := b.attachments_ ++
      [⟨format, VK_SAMPLE_COUNT_1_BIT, loadOp, storeOp, initialLayout, finalLayout⟩] }

/-- Modelled from the spec: `addDepth` appends an attachment description and sets the
depth reference, "validating that at most one depth attachment exists (violating this
is a usage error)", which is `none`. -/
def addDepth (b : VulkanRenderPassBuilder) (format : VkFormat)
    (loadOp storeOp initialLayout finalLayout samples : Nat) :
    Option VulkanRenderPassBuilder :=
  if b.refDepth_.layout = VK_IMAGE_LAYOUT_UNDEFINED then
    some { b with
      refDepth_ := ⟨b.attachments_.length, VK_IMAGE_LAYOUT_DEPTH_STENCIL_ATTACHMENT_OPTIMAL⟩
      attachments_ := b.attachments_ ++
        [⟨format, samples, loadOp, storeOp, initialLayout, finalLayout⟩] }
  else none

/-- Modelled from the spec: `addDepthResolve` appends an attachment description, with a
single sample, and sets the depth resolve reference, "validating that at most one
depth-resolve attachment exists (violating this is a usage error)", which is `none`. -/
def addDepthResolve (b : VulkanRenderPassBuilder) (format : VkFormat)
    (loadOp storeOp initialLayout finalLayout : Nat) : Option VulkanRenderPassBuilder :=
  if b.refDepthResolve_.layout = VK_IMAGE_LAYOUT_UNDEFINED then
    some { b with
      refDepthResolve_ :=
        ⟨b.attachments_.length, VK_IMAGE_LAYOUT_DEPTH_STENCIL_ATTACHMENT_OPTIMAL⟩
      attachments_ := b.attachments_ ++
        [⟨format, VK_SAMPLE_COUNT_1_BIT, loadOp, storeOp, initialLayout, finalLayout⟩] }
  else none

/-- The builder after one call, `none` on a usage error. -/
def call (b : VulkanRenderPassBuilder) : AddCall → Option VulkanRenderPassBuilder
  | .addColor f l s i fl n => some (b.addColor f l s i fl n)
  | .addColorResolve f l s i fl => some (b.addColorResolve f l s i fl)
  | .addDepth f l s i fl n => b.addDepth f l s i fl n
  | .addDepthResolve f l s i fl => b.addDepthResolve f l s i fl

/-- The builder after a sequence of calls, `none` as soon as one is a usage error. -/
def buildFrom (b : VulkanRenderPassBuilder) : List AddCall → Option VulkanRenderPassBuilder
  | [] => some b
  | c :: rest =>
    match b.call c with
    | none => none
    | some b2 => buildFrom b2 rest

/-- A sequence of calls on a default-constructed builder. -/
def build (calls : List AddCall) : Option VulkanRenderPassBuilder :=
  buildFrom {} calls

/-- Modelled from the spec: `VulkanRenderPassBuilder::operator==`, "two builders compare
equal iff every attachment field and reference matches positionally and in count —
resolve attachments included". -/
def eq (a b : VulkanRenderPassBuilder) : Bool :=
  vectorEq VkAttachmentDescription.eq a.attachments_ b.attachments_ &&
    vectorEq VkAttachmentReference.eq a.refsColor_ b.refsColor_ &&
    vectorEq VkAttachmentReference.eq a.refsColorResolve_ b.refsColorResolve_ &&
    a.refDepth_.eq b.refDepth_ && a.refDepthResolve_.eq b.refDepthResolve_

/-- Modelled from the spec: the values that `HashFunction` combines, "all attachment
fields": every field of every attachment and of every reference, in the order of the
data members. -/
def hashedFields (H : HashDecl) (b : VulkanRenderPassBuilder) : List Nat :=
  (b.attachments_.map fun a =>
      [H.formatValue a.format, a.samples, a.loadOp, a.storeOp, a.initialLayout,
        a.finalLayout]).flatten ++
    (b.refsColor_.map fun r => [r.attachment, r.layout]).flatten ++
    (b.refsColorResolve_.map fun r => [r.attachment, r.layout]).flatten ++
    [b.refDepth_.attachment, b.refDepth_.layout,
      b.refDepthResolve_.attachment, b.refDepthResolve_.layout]

/-- Modelled from the spec: `HashFunction::operator()`, a `uint64_t` that "combines all
attachment fields". -/
def HashFunction (H : HashDecl) (b : VulkanRenderPassBuilder) : Nat :=
  (hashedFields H b).foldl (fun hash v => H.combine hash v % u64) 0

/-- The invariant of a builder reached by `add` calls: every reference points below the
number of attachments, and a depth reference with `VK_IMAGE_LAYOUT_UNDEFINED` is still
the default `{}`. -/
def WellFormed (b : VulkanRenderPassBuilder) : Prop :=
  (∀ r ∈ b.refsColor_, r.attachment < b.attachments_.length) ∧
    (∀ r ∈ b.refsColorResolve_, r.attachment < b.attachments_.length) ∧
    (b.refDepth_.layout ≠ VK_IMAGE_LAYOUT_UNDEFINED →
      b.refDepth_.attachment < b.attachments_.length) ∧
    (b.refDepthResolve_.layout ≠ VK_IMAGE_LAYOUT_UNDEFINED →
      b.refDepthResolve_.attachment < b.attachments_.length) ∧
    (b.refDepth_.layout = VK_IMAGE_LAYOUT_UNDEFINED → b.refDepth_ = {}) ∧
    (b.refDepthResolve_.layout = VK_IMAGE_LAYOUT_UNDEFINED → b.refDepthResolve_ = {})

end VulkanRenderPassBuilder

/-- The four kinds of attachment a builder call adds. -/
inductive AttachmentKind where
  | color
  | colorResolve
  | depth
  | depthResolve
deriving DecidableEq, Repr

/-- The kind of attachment a call adds. -/
def AddCall.kind : AddCall → AttachmentKind
  | .addColor .. => AttachmentKind.color
  | .addColorResolve .. => AttachmentKind.colorResolve
  | .addDepth .. => AttachmentKind.depth
  | .addDepthResolve .. => AttachmentKind.depthResolve

/-- The attachment description a call appends. -/
def AddCall.description : AddCall → VkAttachmentDescription
  | .addColor f l s i fl n => ⟨f, n, l, s, i, fl⟩
  | .addColorResolve f l s i fl => ⟨f, VK_SAMPLE_COUNT_1_BIT, l, s, i, fl⟩
  | .addDepth f l s i fl n => ⟨f, n, l, s, i, fl⟩
  | .addDepthResolve f l s i fl => ⟨f, VK_SAMPLE_COUNT_1_BIT, l, s, i, fl⟩

/-! ## VulkanQueuePool.cpp: enumeration of the queues of a device -/

/-- The fields of `VkQueueFamilyProperties` (Vulkan headers) that `enumerateQueues`
reads; both are `uint32_t` values reported by the driver. -/
structure VkQueueFamilyProperties where
  queueFlags : Nat
  queueCount : Nat
deriving DecidableEq, Repr

/-- The function `enumerateQueues(physicalDevice)`, on the family properties that
`vkGetPhysicalDeviceQueueFamilyProperties` reports: for every family `i` and every
`j` below its `queueCount`, the descriptor with `queueIndex = j`, `familyIndex = i` and
the flags of the family is inserted into the set. -/
def enumerateQueues (D : QueueDescriptorDecl) (properties : List VkQueueFamilyProperties) :
    List VulkanQueueDescriptor :=
  properties.enum.foldl
    (fun descriptors (ip : Nat × VkQueueFamilyProperties) =>
      (List.range ip.2.queueCount).foldl
        (fun descriptors j => setInsert D.less ⟨j, ip.1, ip.2.queueFlags⟩ descriptors)
        descriptors)
    []

/-- The constructor `VulkanQueuePool(VkPhysicalDevice physicalDevice)`, which delegates
to `VulkanQueuePool(enumerateQueues(physicalDevice))`. -/
def VulkanQueuePool.ofPhysicalDevice (D : QueueDescriptorDecl)
    (properties : List VkQueueFamilyProperties) : VulkanQueuePool :=
  VulkanQueuePool.ofAvailable (enumerateQueues D properties)

/-! ## Arithmetic of the handle packing -/

theorem land_mask32 (x : Nat) : x &&& 0xffffffff = x % 2 ^ 32 := by
  have h : (0xffffffff : Nat) = 2 ^ 32 - 1 := by norm_num
  rw [h, Nat.and_pow_two_sub_one_eq_mod]

theorem ofHandle_fields (x : Nat) :
    (SubmitHandle.ofHandle x).bufferIndex_ = x % 2 ^ 32 ∧
      (SubmitHandle.ofHandle x).submitId_ = x / 2 ^ 32 % 2 ^ 32 := by
  simp only [SubmitHandle.ofHandle, u32, land_mask32, Nat.shiftRight_eq_div_pow]
  exact ⟨Nat.mod_mod _ _, trivial⟩

theorem handle_eq (h : SubmitHandle) (hw : h.WellFormed) :
    h.handle = h.submitId_ * 2 ^ 32 + h.bufferIndex_ := by
  obtain ⟨hb, hs⟩ := hw
  simp only [SubmitHandle.handle, u64, u32, Nat.shiftLeft_eq] at *
  omega

/-! ## Submit handles -/

/-- C1: packing a submit handle and unpacking it again loses nothing. For a handle with
`uint32_t` fields and a non-zero `submitId_`, `SubmitHandle(h.handle())` passes the
constructor's assertion and equals `h`; for a 64-bit value `x` whose upper 32 bits are
non-zero, `SubmitHandle(x).handle() == x`, with `bufferIndex_` the low and `submitId_`
the high 32 bits of `x`. -/
theorem submitHandle_roundtrip :
    (∀ h : SubmitHandle, h.WellFormed → h.submitId_ ≠ 0 →
        SubmitHandle.ofHandleAssert h.handle = true ∧
        (SubmitHandle.ofHandle h.handle).bufferIndex_ = h.bufferIndex_ ∧
        (SubmitHandle.ofHandle h.handle).submitId_ = h.submitId_) ∧
    (∀ x : Nat, x < u64 → x / 2 ^ 32 ≠ 0 →
        (SubmitHandle.ofHandle x).handle = x ∧
        (SubmitHandle.ofHandle x).bufferIndex_ = x % 2 ^ 32 ∧
        (SubmitHandle.ofHandle x).submitId_ = x / 2 ^ 32) := by
  constructor
  · intro h hw hne
    have hh := handle_eq h hw
    obtain ⟨hb, hs⟩ := hw
    obtain ⟨f1, f2⟩ := ofHandle_fields h.handle
    simp only [u32] at hb hs
    have e1 : (SubmitHandle.ofHandle h.handle).bufferIndex_ = h.bufferIndex_ := by
      rw [f1, hh]; omega
    have e2 : (SubmitHandle.ofHandle h.handle).submitId_ = h.submitId_ := by
      rw [f2, hh]; omega
    refine ⟨?_, e1, e2⟩
    simp [SubmitHandle.ofHandleAssert, e2, hne]
  · intro x hx _
    obtain ⟨f1, f2⟩ := ofHandle_fields x
    simp only [u64] at hx
    have e2 : (SubmitHandle.ofHandle x).submitId_ = x / 2 ^ 32 := by
      rw [f2]; omega
    refine ⟨?_, f1, e2⟩
    have hw : (SubmitHandle.ofHandle x).WellFormed := by
      constructor
      · rw [f1]; exact Nat.mod_lt _ (by norm_num)
      · rw [f2]; exact Nat.mod_lt _ (by norm_num)
    rw [handle_eq _ hw, f1, e2]
    omega

/-- Witness for C1 at the handle of slot 5, submission 7, and at its packed value. -/
theorem submitHandle_roundtrip_witness :
    (SubmitHandle.ofHandle (SubmitHandle.handle ⟨5, 7⟩)).submitId_ = 7 ∧
      (SubmitHandle.ofHandle (7 * 2 ^ 32 + 5)).handle = 7 * 2 ^ 32 + 5 :=
  ⟨(submitHandle_roundtrip.1 ⟨5, 7⟩ (by decide) (by decide)).2.2,
   (submitHandle_roundtrip.2 (7 * 2 ^ 32 + 5) (by decide) (by decide)).1⟩

/-- C2: submit handles order by counter. For handles with `uint32_t` fields, a smaller
`submitId_` gives a smaller packed `handle()` whatever the two `bufferIndex_` values
are, and two packed values are equal exactly when both fields are equal. -/
theorem submitHandle_order (h1 h2 : SubmitHandle) (hw1 : h1.WellFormed)
    (hw2 : h2.WellFormed) :
    (h1.submitId_ < h2.submitId_ → h1.handle < h2.handle) ∧
    (h1.handle = h2.handle ↔
      h1.bufferIndex_ = h2.bufferIndex_ ∧ h1.submitId_ = h2.submitId_) := by
  rw [handle_eq h1 hw1, handle_eq h2 hw2]
  obtain ⟨hb1, hs1⟩ := hw1
  obtain ⟨hb2, hs2⟩ := hw2
  simp only [u32] at hb1 hs1 hb2 hs2
  refine ⟨fun h => by omega, ⟨fun h => by omega, fun h => by omega⟩⟩

/-- Witness for C2: submission 1 in the last slot is below submission 2 in slot 0. -/
theorem submitHandle_order_witness :
    SubmitHandle.handle ⟨4294967295, 1⟩ < SubmitHandle.handle ⟨0, 2⟩ :=
  (submitHandle_order ⟨4294967295, 1⟩ ⟨0, 2⟩ (by decide) (by decide)).1 (by decide)

/-- C3: a submit handle is empty exactly when its counter is zero, whatever its
`bufferIndex_`; the default-constructed handle is empty and packs to `0`. -/
theorem submitHandle_empty_iff :
    (∀ h : SubmitHandle, h.empty = true ↔ h.submitId_ = 0) ∧
    (({} : SubmitHandle).empty = true) ∧ (({} : SubmitHandle).handle = 0) := by
  refine ⟨fun h => ?_, ?_, ?_⟩
  · simp [SubmitHandle.empty]
  · rfl
  · simp [SubmitHandle.handle]

/-- C4: the initial state of the executor. The capacity `kMaxCommandBuffers` is 64,
the state has 64 slots and all of them are available, the submission counter is 1,
the last submit handle is the empty handle, and every slot has `isEncoding_ == false`
and an empty `handle_`. -/
theorem initial_state :
    kMaxCommandBuffers = 64 ∧
    VulkanImmediateCommands.initial.buffers_.length = 64 ∧
    VulkanImmediateCommands.initial.numAvailableCommandBuffers_ = 64 ∧
    VulkanImmediateCommands.initial.submitCounter_ = 1 ∧
    VulkanImmediateCommands.initial.getLastSubmitHandle = {} ∧
    VulkanImmediateCommands.initial.getLastSubmitHandle.empty = true ∧
    (∀ w ∈ VulkanImmediateCommands.initial.buffers_,
      w.isEncoding_ = false ∧ w.handle_.empty = true) := by
  refine ⟨rfl, ?_, rfl, rfl, rfl, rfl, ?_⟩
  · simp [VulkanImmediateCommands.initial, kMaxCommandBuffers]
  · intro w hw
    simp only [VulkanImmediateCommands.initial] at hw
    rw [List.eq_of_mem_replicate hw]
    exact ⟨rfl, rfl⟩

/-! ## The queue pool -/

open VulkanQueuePool

theorem mem_setInsert (less : VulkanQueueDescriptor → VulkanQueueDescriptor → Bool)
    (d x : VulkanQueueDescriptor) (s : List VulkanQueueDescriptor) :
    x ∈ setInsert less d s ↔ x = d ∨ x ∈ s := by
  unfold setInsert
  split
  · constructor
    · exact Or.inr
    · rintro (rfl | h)
      · assumption
      · exact h
  · rename_i hd
    have hs : x ∈ s ↔ x ∈ (s.takeWhile fun y => !less d y) ∨
        x ∈ (s.dropWhile fun y => !less d y) := by
      rw [← List.mem_append, List.takeWhile_append_dropWhile]
    rw [List.mem_append, List.mem_cons, hs]
    tauto

theorem land_ne_zero_of_testBit (a b i : Nat) (ha : a &&& 2 ^ i ≠ 0) (hb : b &&& 2 ^ i ≠ 0) :
    a &&& b ≠ 0 := by
  rw [Nat.and_two_pow] at ha hb
  have ta : a.testBit i = true := by
    by_contra h
    simp only [Bool.not_eq_true] at h
    simp [h] at ha
  have tb : b.testBit i = true := by
    by_contra h
    simp only [Bool.not_eq_true] at h
    simp [h] at hb
  intro h
  have : (a &&& b).testBit i = true := by
    rw [Nat.testBit_land, ta, tb]; rfl
  rw [h] at this
  simp at this

theorem findDedicatedQueue_cases (D : QueueDescriptorDecl) (pool : VulkanQueuePool)
    (flags required avoid : Nat) :
    findDedicatedQueue D pool flags required avoid = D.emptyDescriptor ∨
      (findDedicatedQueue D pool flags required avoid ∈ pool.availableDescriptors_ ∧
        (findDedicatedQueue D pool flags required avoid).queueFlags &&& flags ≠ 0 ∧
        (findDedicatedQueue D pool flags required avoid).queueFlags &&& avoid = 0 ∧
        flags &&& required ≠ 0) := by
  unfold findDedicatedQueue
  split
  · rename_i hreq
    split
    · rename_i q hq
      right
      have hp := List.find?_some hq
      simp only [Bool.and_eq_true, bne_iff_ne, ne_eq, beq_iff_eq] at hp
      exact ⟨List.mem_of_find?_eq_some hq, hp.1, hp.2, hreq⟩
    · exact Or.inl rfl
  · exact Or.inl rfl

theorem findDedicatedQueue_found (D : QueueDescriptorDecl) (pool : VulkanQueuePool)
    (flags required avoid : Nat) (hreq : flags &&& required ≠ 0)
    (hex : ∃ d ∈ pool.availableDescriptors_, d.queueFlags &&& flags ≠ 0 ∧
      d.queueFlags &&& avoid = 0) :
    findDedicatedQueue D pool flags required avoid ∈ pool.availableDescriptors_ ∧
      (findDedicatedQueue D pool flags required avoid).queueFlags &&& flags ≠ 0 ∧
      (findDedicatedQueue D pool flags required avoid).queueFlags &&& avoid = 0 := by
  unfold findDedicatedQueue
  rw [if_pos hreq]
  split
  · rename_i q hq
    have hp := List.find?_some hq
    simp only [Bool.and_eq_true, bne_iff_ne, ne_eq, beq_iff_eq] at hp
    exact ⟨List.mem_of_find?_eq_some hq, hp.1, hp.2⟩
  · rename_i hnone
    rw [List.find?_eq_none] at hnone
    obtain ⟨d, hd, h1, h2⟩ := hex
    exact absurd (by simp [h1, h2]) (hnone d hd)

theorem findDedicatedQueue_none (D : QueueDescriptorDecl) (pool : VulkanQueuePool)
    (flags required avoid : Nat)
    (hno : flags &&& required = 0 ∨ ∀ d ∈ pool.availableDescriptors_,
      d.queueFlags &&& flags = 0 ∨ d.queueFlags &&& avoid ≠ 0) :
    findDedicatedQueue D pool flags required avoid = D.emptyDescriptor := by
  unfold findDedicatedQueue
  split
  · rename_i hreq
    rcases hno with h | h
    · exact absurd h hreq
    · split
      · rename_i q hq
        have hp := List.find?_some hq
        simp only [Bool.and_eq_true, bne_iff_ne, ne_eq, beq_iff_eq] at hp
        rcases h q (List.mem_of_find?_eq_some hq) with h' | h'
        · exact absurd h' hp.1
        · exact absurd hp.2 h'
      · rfl
  · rfl

theorem findQueueDescriptor_cases (D : QueueDescriptorDecl) (pool : VulkanQueuePool)
    (flags : Nat) :
    findQueueDescriptor D pool flags = D.emptyDescriptor ∨
      (D.isValid (findQueueDescriptor D pool flags) = true ∧
        findQueueDescriptor D pool flags ∈ pool.availableDescriptors_ ∧
        (findQueueDescriptor D pool flags).queueFlags &&& flags ≠ 0) := by
  unfold findQueueDescriptor
  simp only
  split
  · rename_i hv
    rcases findDedicatedQueue_cases D pool flags VK_QUEUE_COMPUTE_BIT VK_QUEUE_GRAPHICS_BIT
      with h | h
    · rw [h, D.empty_invalid] at hv; exact absurd hv (by simp)
    · exact Or.inr ⟨hv, h.1, h.2.1⟩
  · split
    · rename_i hv
      rcases findDedicatedQueue_cases D pool flags VK_QUEUE_TRANSFER_BIT VK_QUEUE_GRAPHICS_BIT
        with h | h
      · rw [h, D.empty_invalid] at hv; exact absurd hv (by simp)
      · exact Or.inr ⟨hv, h.1, h.2.1⟩
    · split
      · rename_i hv
        rcases findDedicatedQueue_cases D pool flags flags 0 with h | h
        · rw [h, D.empty_invalid] at hv; exact absurd hv (by simp)
        · exact Or.inr ⟨hv, h.1, h.2.1⟩
      · exact Or.inl rfl

theorem reserveQueue_of_mem (D : QueueDescriptorDecl) (pool : VulkanQueuePool)
    (d : VulkanQueueDescriptor) (h : d ∈ pool.availableDescriptors_) :
    reserveQueue D pool d =
      { availableDescriptors_ := pool.availableDescriptors_.erase d
        reservedDescriptors_ := setInsert D.less d pool.reservedDescriptors_ } := by
  simp [reserveQueue, setErase, h]

theorem reserveQueue_of_not_mem (D : QueueDescriptorDecl) (pool : VulkanQueuePool)
    (d : VulkanQueueDescriptor) (h : d ∉ pool.availableDescriptors_) :
    reserveQueue D pool d = pool := by
  simp [reserveQueue, setErase, h]

theorem reserveQueue_available_subset (D : QueueDescriptorDecl) (pool : VulkanQueuePool)
    (d x : VulkanQueueDescriptor) (hx : x ∈ (reserveQueue D pool d).availableDescriptors_) :
    x ∈ pool.availableDescriptors_ := by
  by_cases h : d ∈ pool.availableDescriptors_
  · rw [reserveQueue_of_mem D pool d h] at hx
    exact List.mem_of_mem_erase hx
  · rwa [reserveQueue_of_not_mem D pool d h] at hx

theorem reserveQueue_reserved_subset (D : QueueDescriptorDecl) (pool : VulkanQueuePool)
    (d x : VulkanQueueDescriptor) (hx : x ∈ pool.reservedDescriptors_) :
    x ∈ (reserveQueue D pool d).reservedDescriptors_ := by
  by_cases h : d ∈ pool.availableDescriptors_
  · rw [reserveQueue_of_mem D pool d h]
    exact (mem_setInsert D.less d x _).2 (Or.inr hx)
  · rwa [reserveQueue_of_not_mem D pool d h]

theorem call_available_subset (D : QueueDescriptorDecl) (pool : VulkanQueuePool)
    (c : PoolCall) (x : VulkanQueueDescriptor)
    (hx : x ∈ (pool.call D c).1.availableDescriptors_) : x ∈ pool.availableDescriptors_ := by
  cases c with
  | findQueueDescriptor flags => exact hx
  | reserveQueue d => exact reserveQueue_available_subset D pool d x hx
  | getQueueCreationInfos => exact hx

theorem call_reserved_subset (D : QueueDescriptorDecl) (pool : VulkanQueuePool)
    (c : PoolCall) (x : VulkanQueueDescriptor) (hx : x ∈ pool.reservedDescriptors_) :
    x ∈ (pool.call D c).1.reservedDescriptors_ := by
  cases c with
  | findQueueDescriptor flags => exact hx
  | reserveQueue d => exact reserveQueue_reserved_subset D pool d x hx
  | getQueueCreationInfos => exact hx

theorem run_cons (D : QueueDescriptorDecl) (pool : VulkanQueuePool) (c : PoolCall)
    (calls : List PoolCall) :
    run D pool (c :: calls) = run D (pool.call D c).1 calls := rfl

theorem run_append (D : QueueDescriptorDecl) (pool : VulkanQueuePool)
    (calls1 calls2 : List PoolCall) :
    run D pool (calls1 ++ calls2) = run D (run D pool calls1) calls2 := by
  simp [run, List.foldl_append]

theorem run_available_subset (D : QueueDescriptorDecl) (calls : List PoolCall) :
    ∀ (pool : VulkanQueuePool) (x : VulkanQueueDescriptor),
      x ∈ (run D pool calls).availableDescriptors_ → x ∈ pool.availableDescriptors_ := by
  induction calls with
  | nil => intro pool x hx; exact hx
  | cons c calls ih =>
    intro pool x hx
    rw [run_cons] at hx
    exact call_available_subset D pool c x (ih _ x hx)

theorem run_reserved_subset (D : QueueDescriptorDecl) (calls : List PoolCall) :
    ∀ (pool : VulkanQueuePool) (x : VulkanQueueDescriptor),
      x ∈ pool.reservedDescriptors_ → x ∈ (run D pool calls).reservedDescriptors_ := by
  induction calls with
  | nil => intro pool x hx; exact hx
  | cons c calls ih =>
    intro pool x hx
    rw [run_cons]
    exact ih _ x (call_reserved_subset D pool c x hx)

theorem reserveQueue_inv (D : QueueDescriptorDecl) (initial : List VulkanQueueDescriptor)
    (pool : VulkanQueuePool) (d : VulkanQueueDescriptor) (hinv : PoolInv initial pool) :
    PoolInv initial (reserveQueue D pool d) := by
  by_cases h : d ∈ pool.availableDescriptors_
  · obtain ⟨hnd, hdis, hun⟩ := hinv
    rw [reserveQueue_of_mem D pool d h]
    refine ⟨hnd.erase d, ?_, ?_⟩
    · intro x hx hr
      simp only at hx hr
      rw [hnd.mem_erase_iff] at hx
      rcases (mem_setInsert D.less d x _).1 hr with e | hr'
      · exact hx.1 e
      · exact hdis x hx.2 hr'
    · intro x
      simp only
      rw [hnd.mem_erase_iff, mem_setInsert, ← hun x]
      constructor
      · rintro (⟨_, hx⟩ | rfl | hx)
        · exact Or.inl hx
        · exact Or.inl h
        · exact Or.inr hx
      · rintro (hx | hx)
        · by_cases e : x = d
          · exact Or.inr (Or.inl e)
          · exact Or.inl ⟨e, hx⟩
        · exact Or.inr (Or.inr hx)
  · rwa [reserveQueue_of_not_mem D pool d h]

theorem call_inv (D : QueueDescriptorDecl) (initial : List VulkanQueueDescriptor)
    (pool : VulkanQueuePool) (c : PoolCall) (hinv : PoolInv initial pool) :
    PoolInv initial (pool.call D c).1 := by
  cases c with
  | findQueueDescriptor flags => exact hinv
  | reserveQueue d => exact reserveQueue_inv D initial pool d hinv
  | getQueueCreationInfos => exact hinv

theorem run_inv (D : QueueDescriptorDecl) (initial : List VulkanQueueDescriptor)
    (calls : List PoolCall) :
    ∀ pool : VulkanQueuePool, PoolInv initial pool → PoolInv initial (run D pool calls) := by
  induction calls with
  | nil => intro pool h; exact h
  | cons c calls ih =>
    intro pool h
    rw [run_cons]
    exact ih _ (call_inv D initial pool c h)

theorem ofAvailable_inv (initial : List VulkanQueueDescriptor) (h : initial.Nodup) :
    PoolInv initial (ofAvailable initial) := by
  refine ⟨h, ?_, ?_⟩
  · intro x _ hr
    simp [ofAvailable] at hr
  · intro x
    simp [ofAvailable]

/-- C5: in a pool whose available descriptors are exactly one valid graphics+compute
queue `a` and one graphics queue without compute `b`, `findQueueDescriptor(COMPUTE)`
returns `a`; and in every pool, once a valid descriptor returned by
`findQueueDescriptor(flags)` has been reserved, no `findQueueDescriptor` call made after
any further sequence of calls, with any flags, returns that descriptor. -/
theorem findQueueDescriptor_compute_and_reserved (D : QueueDescriptorDecl) :
    (∀ (pool : VulkanQueuePool) (a b : VulkanQueueDescriptor),
      D.isValid a = true →
      a.queueFlags &&& VK_QUEUE_GRAPHICS_BIT ≠ 0 → a.queueFlags &&& VK_QUEUE_COMPUTE_BIT ≠ 0 →
      b.queueFlags &&& VK_QUEUE_GRAPHICS_BIT ≠ 0 → b.queueFlags &&& VK_QUEUE_COMPUTE_BIT = 0 →
      (pool.availableDescriptors_ = [a, b] ∨ pool.availableDescriptors_ = [b, a]) →
      findQueueDescriptor D pool VK_QUEUE_COMPUTE_BIT = a) ∧
    (∀ (pool : VulkanQueuePool) (flags : Nat),
      pool.availableDescriptors_.Nodup →
      D.isValid (findQueueDescriptor D pool flags) = true →
      ∀ (calls : List PoolCall) (flags2 : Nat),
        findQueueDescriptor D
          (run D (reserveQueue D pool (findQueueDescriptor D pool flags)) calls) flags2 ≠
        findQueueDescriptor D pool flags) := by
  constructor
  · intro pool a b hva hag hac hbg hbc hpool
    have h1 : findDedicatedQueue D pool VK_QUEUE_COMPUTE_BIT VK_QUEUE_COMPUTE_BIT
        VK_QUEUE_GRAPHICS_BIT = D.emptyDescriptor := by
      apply findDedicatedQueue_none
      right
      intro d hd
      right
      rcases hpool with h | h <;> rw [h] at hd <;> simp only [List.mem_cons,
        List.mem_singleton, List.not_mem_nil, or_false] at hd <;>
        rcases hd with rfl | rfl <;> assumption
    have h2 : findDedicatedQueue D pool VK_QUEUE_COMPUTE_BIT VK_QUEUE_TRANSFER_BIT
        VK_QUEUE_GRAPHICS_BIT = D.emptyDescriptor := by
      apply findDedicatedQueue_none
      left
      decide
    have h3 : findDedicatedQueue D pool VK_QUEUE_COMPUTE_BIT VK_QUEUE_COMPUTE_BIT 0 = a := by
      have hfound := findDedicatedQueue_found D pool VK_QUEUE_COMPUTE_BIT
        VK_QUEUE_COMPUTE_BIT 0 (by decide)
        ⟨a, by rcases hpool with h | h <;> simp [h], hac, Nat.and_zero _⟩
      obtain ⟨hm, hs, _⟩ := hfound
      have hm2 : findDedicatedQueue D pool VK_QUEUE_COMPUTE_BIT VK_QUEUE_COMPUTE_BIT 0 = a ∨
          findDedicatedQueue D pool VK_QUEUE_COMPUTE_BIT VK_QUEUE_COMPUTE_BIT 0 = b := by
        rcases hpool with h | h <;> rw [h] at hm <;> simp only [List.mem_cons,
          List.mem_singleton, List.not_mem_nil, or_false] at hm
        · exact hm
        · exact hm.symm
      rcases hm2 with e | e
      · exact e
      · rw [e] at hs
        exact absurd hbc hs
    unfold findQueueDescriptor
    simp only [h1, h2, h3, D.empty_invalid, hva]
    simp
  · intro pool flags hnd hv calls flags2 heq
    rcases findQueueDescriptor_cases D pool flags with h | ⟨_, hmem, _⟩
    · rw [h, D.empty_invalid] at hv
      exact absurd hv (by simp)
    · rcases findQueueDescriptor_cases D
        (run D (reserveQueue D pool (findQueueDescriptor D pool flags)) calls) flags2
        with h2 | ⟨_, hmem2, _⟩
      · rw [heq] at h2
        rw [h2, D.empty_invalid] at hv
        exact absurd hv (by simp)
      · rw [heq] at hmem2
        have h3 := run_available_subset D calls _ _ hmem2
        rw [reserveQueue_of_mem D pool _ hmem] at h3
        simp only at h3
        rw [hnd.mem_erase_iff] at h3
        exact h3.1 rfl

/-- Witness for C5: a graphics+compute queue and a graphics-only queue of family 0. -/
theorem findQueueDescriptor_compute_and_reserved_witness :
    findQueueDescriptor indexDecl (ofAvailable [⟨0, 0, 3⟩, ⟨0, 1, 1⟩]) VK_QUEUE_COMPUTE_BIT
        = ⟨0, 0, 3⟩ ∧
      findQueueDescriptor indexDecl
        (run indexDecl (reserveQueue indexDecl (ofAvailable [⟨0, 0, 3⟩, ⟨0, 1, 1⟩])
          (findQueueDescriptor indexDecl (ofAvailable [⟨0, 0, 3⟩, ⟨0, 1, 1⟩])
            VK_QUEUE_COMPUTE_BIT)) [])
        VK_QUEUE_GRAPHICS_BIT ≠
      findQueueDescriptor indexDecl (ofAvailable [⟨0, 0, 3⟩, ⟨0, 1, 1⟩])
        VK_QUEUE_COMPUTE_BIT :=
  ⟨(findQueueDescriptor_compute_and_reserved indexDecl).1
      (ofAvailable [⟨0, 0, 3⟩, ⟨0, 1, 1⟩]) ⟨0, 0, 3⟩ ⟨0, 1, 1⟩ (by decide) (by decide)
      (by decide) (by decide) (by decide) (Or.inl rfl),
   (findQueueDescriptor_compute_and_reserved indexDecl).2
      (ofAvailable [⟨0, 0, 3⟩, ⟨0, 1, 1⟩]) VK_QUEUE_COMPUTE_BIT (by decide) (by decide)
      [] VK_QUEUE_GRAPHICS_BIT⟩

theorem findQueueDescriptor_valid_of_shared (D : QueueDescriptorDecl) (pool : VulkanQueuePool)
    (flags : Nat) (hvalid : ∀ d ∈ pool.availableDescriptors_, D.isValid d = true)
    (hex : ∃ d ∈ pool.availableDescriptors_, d.queueFlags &&& flags ≠ 0) :
    D.isValid (findQueueDescriptor D pool flags) = true := by
  have hne : flags &&& flags ≠ 0 := by
    obtain ⟨d, _, hd⟩ := hex
    rw [Nat.and_self]
    rintro rfl
    exact hd (Nat.and_zero _)
  obtain ⟨d, hd, hs⟩ := hex
  have h3 := findDedicatedQueue_found D pool flags flags 0 hne ⟨d, hd, hs, Nat.and_zero _⟩
  unfold findQueueDescriptor
  simp only
  split
  · assumption
  · split
    · assumption
    · rw [if_pos (hvalid _ h3.1)]
      exact hvalid _ h3.1

theorem findQueueDescriptor_zero (D : QueueDescriptorDecl) (pool : VulkanQueuePool) :
    findQueueDescriptor D pool 0 = D.emptyDescriptor := by
  have h : ∀ required avoid, findDedicatedQueue D pool 0 required avoid = D.emptyDescriptor :=
    fun required avoid => findDedicatedQueue_none D pool 0 required avoid
      (Or.inl (Nat.zero_and _))
  unfold findQueueDescriptor
  simp [h, D.empty_invalid]

theorem land_two_pow_eq (a i : Nat) (h : a &&& 2 ^ i ≠ 0) : a &&& 2 ^ i = 2 ^ i := by
  rw [Nat.and_two_pow] at h ⊢
  cases hb : a.testBit i <;> simp [hb] at h ⊢

/-- Whatever `isValid()`, the default descriptor and the set order are: when the
compute-only descriptor of family 0 is valid and is the only available one, a request
for `GRAPHICS | COMPUTE` returns it. -/
theorem findQueueDescriptor_compute_only (D : QueueDescriptorDecl)
    (hv : D.isValid ⟨0, 0, VK_QUEUE_COMPUTE_BIT⟩ = true) :
    findQueueDescriptor D (ofAvailable [⟨0, 0, VK_QUEUE_COMPUTE_BIT⟩])
      (VK_QUEUE_GRAPHICS_BIT ||| VK_QUEUE_COMPUTE_BIT) = ⟨0, 0, VK_QUEUE_COMPUTE_BIT⟩ := by
  have h1 : findDedicatedQueue D (ofAvailable [⟨0, 0, VK_QUEUE_COMPUTE_BIT⟩])
      (VK_QUEUE_GRAPHICS_BIT ||| VK_QUEUE_COMPUTE_BIT) VK_QUEUE_COMPUTE_BIT
      VK_QUEUE_GRAPHICS_BIT = ⟨0, 0, VK_QUEUE_COMPUTE_BIT⟩ := by
    have hm := (findDedicatedQueue_found D (ofAvailable [⟨0, 0, VK_QUEUE_COMPUTE_BIT⟩])
      (VK_QUEUE_GRAPHICS_BIT ||| VK_QUEUE_COMPUTE_BIT) VK_QUEUE_COMPUTE_BIT
      VK_QUEUE_GRAPHICS_BIT (by decide)
      ⟨⟨0, 0, VK_QUEUE_COMPUTE_BIT⟩, by decide, by decide, by decide⟩).1
    simpa [ofAvailable] using hm
  unfold findQueueDescriptor
  simp only [h1, hv, if_true]

/-- C6, counterexample: with a single compute-only queue available, a request for
`GRAPHICS | COMPUTE` returns that queue, which is valid and lacks the requested
`GRAPHICS` bit. -/
theorem findQueueDescriptor_superset_counterexample :
    indexDecl.isValid (findQueueDescriptor indexDecl
        (ofAvailable [⟨0, 0, VK_QUEUE_COMPUTE_BIT⟩])
        (VK_QUEUE_GRAPHICS_BIT ||| VK_QUEUE_COMPUTE_BIT)) = true ∧
      (findQueueDescriptor indexDecl (ofAvailable [⟨0, 0, VK_QUEUE_COMPUTE_BIT⟩])
        (VK_QUEUE_GRAPHICS_BIT ||| VK_QUEUE_COMPUTE_BIT)).queueFlags &&&
          (VK_QUEUE_GRAPHICS_BIT ||| VK_QUEUE_COMPUTE_BIT) ≠
        VK_QUEUE_GRAPHICS_BIT ||| VK_QUEUE_COMPUTE_BIT := by
  decide

/-- C6, amended: every valid descriptor returned by `findQueueDescriptor(requiredFlags)`
is an available descriptor that shares at least one bit with `requiredFlags`
(`result.queueFlags & requiredFlags != 0`); when `requiredFlags` is a single bit, its
`queueFlags` are a superset of `requiredFlags`. -/
theorem findQueueDescriptor_shares_bit (D : QueueDescriptorDecl) (pool : VulkanQueuePool)
    (flags : Nat) (hv : D.isValid (findQueueDescriptor D pool flags) = true) :
    findQueueDescriptor D pool flags ∈ pool.availableDescriptors_ ∧
      (findQueueDescriptor D pool flags).queueFlags &&& flags ≠ 0 ∧
      (∀ i : Nat, flags = 2 ^ i →
        (findQueueDescriptor D pool flags).queueFlags &&& flags = flags) := by
  rcases findQueueDescriptor_cases D pool flags with h | ⟨_, hm, hs⟩
  · rw [h, D.empty_invalid] at hv
    exact absurd hv (by simp)
  · refine ⟨hm, hs, ?_⟩
    intro i hi
    rw [hi] at hs ⊢
    exact land_two_pow_eq _ i hs

/-- Witness for amended C6 at the input of its counterexample. -/
theorem findQueueDescriptor_shares_bit_witness :
    (findQueueDescriptor indexDecl (ofAvailable [⟨0, 0, VK_QUEUE_COMPUTE_BIT⟩])
        (VK_QUEUE_GRAPHICS_BIT ||| VK_QUEUE_COMPUTE_BIT)).queueFlags &&&
      (VK_QUEUE_GRAPHICS_BIT ||| VK_QUEUE_COMPUTE_BIT) ≠ 0 :=
  (findQueueDescriptor_shares_bit indexDecl (ofAvailable [⟨0, 0, VK_QUEUE_COMPUTE_BIT⟩])
    (VK_QUEUE_GRAPHICS_BIT ||| VK_QUEUE_COMPUTE_BIT) (by decide)).2.1

/-- C7: `findQueueDescriptor` prefers a dedicated compute queue. In a pool of valid
descriptors and for requested flags that include `COMPUTE`, if some available
descriptor has the `COMPUTE` bit and lacks the `GRAPHICS` bit then the result is valid
and lacks the `GRAPHICS` bit; so a result with the `GRAPHICS` bit is returned only if
no purely-compute queue is available. -/
theorem findQueueDescriptor_prefers_dedicated_compute (D : QueueDescriptorDecl)
    (pool : VulkanQueuePool) (flags : Nat)
    (hvalid : ∀ d ∈ pool.availableDescriptors_, D.isValid d = true)
    (hflags : flags &&& VK_QUEUE_COMPUTE_BIT ≠ 0) :
    ((∃ d ∈ pool.availableDescriptors_, d.queueFlags &&& VK_QUEUE_COMPUTE_BIT ≠ 0 ∧
        d.queueFlags &&& VK_QUEUE_GRAPHICS_BIT = 0) →
      D.isValid (findQueueDescriptor D pool flags) = true ∧
        (findQueueDescriptor D pool flags).queueFlags &&& VK_QUEUE_GRAPHICS_BIT = 0) ∧
    ((findQueueDescriptor D pool flags).queueFlags &&& VK_QUEUE_GRAPHICS_BIT ≠ 0 →
      ¬ ∃ d ∈ pool.availableDescriptors_, d.queueFlags &&& VK_QUEUE_COMPUTE_BIT ≠ 0 ∧
        d.queueFlags &&& VK_QUEUE_GRAPHICS_BIT = 0) := by
  have main : (∃ d ∈ pool.availableDescriptors_, d.queueFlags &&& VK_QUEUE_COMPUTE_BIT ≠ 0 ∧
        d.queueFlags &&& VK_QUEUE_GRAPHICS_BIT = 0) →
      D.isValid (findQueueDescriptor D pool flags) = true ∧
        (findQueueDescriptor D pool flags).queueFlags &&& VK_QUEUE_GRAPHICS_BIT = 0 := by
    rintro ⟨d, hd, hc, hg⟩
    have hs : d.queueFlags &&& flags ≠ 0 :=
      land_ne_zero_of_testBit d.queueFlags flags 1 hc hflags
    have h1 := findDedicatedQueue_found D pool flags VK_QUEUE_COMPUTE_BIT
      VK_QUEUE_GRAPHICS_BIT hflags ⟨d, hd, hs, hg⟩
    have hv := hvalid _ h1.1
    unfold findQueueDescriptor
    simp only
    rw [if_pos hv]
    exact ⟨hv, h1.2.2⟩
  exact ⟨main, fun hg hex => hg (main hex).2⟩

/-- Witness for C7: a graphics+compute queue next to a compute-only queue. -/
theorem findQueueDescriptor_prefers_dedicated_compute_witness :
    indexDecl.isValid (findQueueDescriptor indexDecl
        (ofAvailable [⟨0, 0, 3⟩, ⟨1, 0, 2⟩]) VK_QUEUE_COMPUTE_BIT) = true ∧
      (findQueueDescriptor indexDecl (ofAvailable [⟨0, 0, 3⟩, ⟨1, 0, 2⟩])
        VK_QUEUE_COMPUTE_BIT).queueFlags &&& VK_QUEUE_GRAPHICS_BIT = 0 :=
  (findQueueDescriptor_prefers_dedicated_compute indexDecl
    (ofAvailable [⟨0, 0, 3⟩, ⟨1, 0, 2⟩]) VK_QUEUE_COMPUTE_BIT (by decide) (by decide)).1
    ⟨⟨1, 0, 2⟩, by decide, by decide, by decide⟩

/-- C8, counterexample: for the empty flag set and a pool holding one valid graphics
queue (whose flags are a superset of the empty set), `findQueueDescriptor(0)` returns
an invalid descriptor. -/
theorem findQueueDescriptor_empty_flags_counterexample :
    (∀ d ∈ (ofAvailable [⟨0, 0, VK_QUEUE_GRAPHICS_BIT⟩]).availableDescriptors_,
        indexDecl.isValid d = true) ∧
      (∃ d ∈ (ofAvailable [⟨0, 0, VK_QUEUE_GRAPHICS_BIT⟩]).availableDescriptors_,
        d.queueFlags &&& 0 = 0) ∧
      indexDecl.isValid (findQueueDescriptor indexDecl
        (ofAvailable [⟨0, 0, VK_QUEUE_GRAPHICS_BIT⟩]) 0) = false := by
  decide

/-- C8, amended: in a pool of valid descriptors and for a non-empty `requiredFlags`, if
some available descriptor's `queueFlags` are a superset of `requiredFlags` then the
result is valid, and an invalid result is returned only when no such descriptor is
available; for the empty flag set the result is always the empty descriptor `{}`. -/
theorem findQueueDescriptor_soft_failure (D : QueueDescriptorDecl) (pool : VulkanQueuePool)
    (flags : Nat) (hvalid : ∀ d ∈ pool.availableDescriptors_, D.isValid d = true) :
    (flags ≠ 0 →
      ((∃ d ∈ pool.availableDescriptors_, d.queueFlags &&& flags = flags) →
        D.isValid (findQueueDescriptor D pool flags) = true) ∧
      (D.isValid (findQueueDescriptor D pool flags) = false →
        ¬ ∃ d ∈ pool.availableDescriptors_, d.queueFlags &&& flags = flags)) ∧
    (flags = 0 → findQueueDescriptor D pool flags = D.emptyDescriptor) := by
  have main : flags ≠ 0 → (∃ d ∈ pool.availableDescriptors_, d.queueFlags &&& flags = flags) →
      D.isValid (findQueueDescriptor D pool flags) = true := by
    rintro hne ⟨d, hd, hs⟩
    exact findQueueDescriptor_valid_of_shared D pool flags hvalid ⟨d, hd, by rw [hs]; exact hne⟩
  refine ⟨fun hne => ⟨main hne, fun hinv hex => ?_⟩, ?_⟩
  · rw [main hne hex] at hinv
    exact absurd hinv (by simp)
  · rintro rfl
    exact findQueueDescriptor_zero D pool

/-- Witness for amended C8: `COMPUTE | TRANSFER` requested, a queue with all three bits
available. -/
theorem findQueueDescriptor_soft_failure_witness :
    indexDecl.isValid (findQueueDescriptor indexDecl
      (ofAvailable [⟨0, 0, 1⟩, ⟨1, 0, 7⟩]) 6) = true :=
  ((findQueueDescriptor_soft_failure indexDecl (ofAvailable [⟨0, 0, 1⟩, ⟨1, 0, 7⟩]) 6
    (by decide)).1 (by decide)).1 ⟨⟨1, 0, 7⟩, by decide, by decide⟩

/-- C9: `reserveQueue` on a pool whose available set has no duplicates. A descriptor that
is not available leaves the pool unchanged; an available one is removed from
`availableDescriptors_` (everything else stays) and added to `reservedDescriptors_`
(nothing else is added); reserving the same descriptor twice gives the same pool as
reserving it once. -/
theorem reserveQueue_idempotent (D : QueueDescriptorDecl) (pool : VulkanQueuePool)
    (d : VulkanQueueDescriptor) (hnd : pool.availableDescriptors_.Nodup) :
    (d ∉ pool.availableDescriptors_ → reserveQueue D pool d = pool) ∧
    (d ∈ pool.availableDescriptors_ →
      (reserveQueue D pool d).availableDescriptors_ = pool.availableDescriptors_.erase d ∧
      d ∉ (reserveQueue D pool d).availableDescriptors_ ∧
      (∀ x, x ∈ (reserveQueue D pool d).availableDescriptors_ ↔
        x ≠ d ∧ x ∈ pool.availableDescriptors_) ∧
      d ∈ (reserveQueue D pool d).reservedDescriptors_ ∧
      (∀ x, x ∈ (reserveQueue D pool d).reservedDescriptors_ ↔
        x = d ∨ x ∈ pool.reservedDescriptors_)) ∧
    reserveQueue D (reserveQueue D pool d) d = reserveQueue D pool d := by
  refine ⟨reserveQueue_of_not_mem D pool d, fun h => ?_, ?_⟩
  · rw [reserveQueue_of_mem D pool d h]
    refine ⟨rfl, ?_, ?_, ?_, ?_⟩
    · intro hm
      exact ((hnd.mem_erase_iff).1 hm).1 rfl
    · intro x
      exact hnd.mem_erase_iff
    · exact (mem_setInsert D.less d d _).2 (Or.inl rfl)
    · intro x
      exact mem_setInsert D.less d x _
  · by_cases h : d ∈ pool.availableDescriptors_
    · apply reserveQueue_of_not_mem
      rw [reserveQueue_of_mem D pool d h]
      intro hm
      exact ((hnd.mem_erase_iff).1 hm).1 rfl
    · rw [reserveQueue_of_not_mem D pool d h, reserveQueue_of_not_mem D pool d h]

/-- Witness for C9: reserving the graphics-only queue of a two-queue pool twice. -/
theorem reserveQueue_idempotent_witness :
    reserveQueue indexDecl
        (reserveQueue indexDecl (ofAvailable [⟨0, 0, 3⟩, ⟨0, 1, 1⟩]) ⟨0, 1, 1⟩) ⟨0, 1, 1⟩ =
      reserveQueue indexDecl (ofAvailable [⟨0, 0, 3⟩, ⟨0, 1, 1⟩]) ⟨0, 1, 1⟩ :=
  (reserveQueue_idempotent indexDecl (ofAvailable [⟨0, 0, 3⟩, ⟨0, 1, 1⟩]) ⟨0, 1, 1⟩
    (by decide)).2.2

/-- C10: reservation is monotonic. Starting from a pool constructed from a set of
descriptors, split any sequence of `findQueueDescriptor` / `reserveQueue` /
`getQueueCreationInfos` calls into an earlier and a later part: everything reserved
after the earlier part is still reserved at the end, everything available at the end
was available after the earlier part, no descriptor is both available and reserved,
and the available and reserved descriptors together are exactly the initial set. -/
theorem reservation_monotonic (D : QueueDescriptorDecl)
    (availableDescriptors : List VulkanQueueDescriptor) (hnd : availableDescriptors.Nodup)
    (calls1 calls2 : List PoolCall) :
    (∀ x, x ∈ (run D (ofAvailable availableDescriptors) calls1).reservedDescriptors_ →
      x ∈ (run D (ofAvailable availableDescriptors) (calls1 ++ calls2)).reservedDescriptors_) ∧
    (∀ x, x ∈ (run D (ofAvailable availableDescriptors) (calls1 ++ calls2)).availableDescriptors_ →
      x ∈ (run D (ofAvailable availableDescriptors) calls1).availableDescriptors_) ∧
    (∀ x, x ∈ (run D (ofAvailable availableDescriptors) (calls1 ++ calls2)).availableDescriptors_ →
      x ∉ (run D (ofAvailable availableDescriptors) (calls1 ++ calls2)).reservedDescriptors_) ∧
    (∀ x, x ∈ (run D (ofAvailable availableDescriptors) (calls1 ++ calls2)).availableDescriptors_ ∨
        x ∈ (run D (ofAvailable availableDescriptors) (calls1 ++ calls2)).reservedDescriptors_ ↔
      x ∈ availableDescriptors) := by
  have hinv := run_inv D availableDescriptors (calls1 ++ calls2) _
    (ofAvailable_inv availableDescriptors hnd)
  refine ⟨?_, ?_, hinv.2.1, hinv.2.2⟩
  · intro x hx
    rw [run_append]
    exact run_reserved_subset D calls2 _ x hx
  · intro x hx
    rw [run_append] at hx
    exact run_available_subset D calls2 _ x hx

/-- Witness for C10 on a two-queue pool and four calls, at the graphics+compute queue. -/
theorem reservation_monotonic_witness :
    (⟨0, 0, 3⟩ ∈ (run indexDecl (ofAvailable [⟨0, 0, 3⟩, ⟨0, 1, 1⟩])
          ([PoolCall.reserveQueue ⟨0, 0, 3⟩] ++ [PoolCall.findQueueDescriptor 1,
            PoolCall.reserveQueue ⟨0, 1, 1⟩,
            PoolCall.getQueueCreationInfos])).availableDescriptors_ ∨
        ⟨0, 0, 3⟩ ∈ (run indexDecl (ofAvailable [⟨0, 0, 3⟩, ⟨0, 1, 1⟩])
          ([PoolCall.reserveQueue ⟨0, 0, 3⟩] ++ [PoolCall.findQueueDescriptor 1,
            PoolCall.reserveQueue ⟨0, 1, 1⟩,
            PoolCall.getQueueCreationInfos])).reservedDescriptors_) ↔
      ⟨0, 0, 3⟩ ∈ [(⟨0, 0, 3⟩ : VulkanQueueDescriptor), ⟨0, 1, 1⟩] :=
  (reservation_monotonic indexDecl [⟨0, 0, 3⟩, ⟨0, 1, 1⟩] (by decide)
    [PoolCall.reserveQueue ⟨0, 0, 3⟩] [PoolCall.findQueueDescriptor 1,
      PoolCall.reserveQueue ⟨0, 1, 1⟩, PoolCall.getQueueCreationInfos]).2.2.2 ⟨0, 0, 3⟩

/-! ## The constructor assertion of `SubmitHandle` -/

/-- C20: the assertion `IGL_ASSERT(submitId_)` in `SubmitHandle(uint64_t handle)` holds
exactly when `handle >= 2^32`: it holds for `h.handle()` of every non-empty handle `h`
with `uint32_t` fields, it is violated for every packed value below `2^32`, and in
particular for the packed value `0` of the default (empty) handle. -/
theorem submitHandle_assert_iff :
    (∀ x : Nat, x < u64 → (SubmitHandle.ofHandleAssert x = true ↔ 2 ^ 32 ≤ x)) ∧
    (∀ h : SubmitHandle, h.WellFormed → h.empty = false →
      SubmitHandle.ofHandleAssert h.handle = true) ∧
    (∀ x : Nat, x < 2 ^ 32 → SubmitHandle.ofHandleAssert x = false) ∧
    SubmitHandle.ofHandleAssert (({} : SubmitHandle).handle) = false := by
  have key : ∀ x : Nat, x < u64 → (SubmitHandle.ofHandleAssert x = true ↔ 2 ^ 32 ≤ x) := by
    intro x hx
    simp only [u64] at hx
    simp only [SubmitHandle.ofHandleAssert, (ofHandle_fields x).2, bne_iff_ne, ne_eq]
    omega
  refine ⟨key, ?_, ?_, ?_⟩
  · intro h hw he
    have hne : h.submitId_ ≠ 0 := by
      simpa [SubmitHandle.empty] using he
    have hh := handle_eq h hw
    obtain ⟨hb, hs⟩ := hw
    simp only [u32] at hb hs
    refine (key h.handle ?_).2 ?_
    · rw [hh]; simp only [u64]; omega
    · rw [hh]; omega
  · intro x hx
    have hx64 : x < u64 := by simp only [u64]; omega
    have := key x hx64
    cases hb : SubmitHandle.ofHandleAssert x
    · rfl
    · rw [hb] at this
      have := this.1 rfl
      omega
  · decide

/-- Witness for C20: the packed value of slot 3, submission 1 passes the assertion. -/
theorem submitHandle_assert_iff_witness :
    SubmitHandle.ofHandleAssert (SubmitHandle.handle ⟨3, 1⟩) = true :=
  submitHandle_assert_iff.2.1 ⟨3, 1⟩ (by decide) (by decide)

/-! ## The success condition of `findQueueDescriptor` -/

/-- C17: the exact success condition of `findQueueDescriptor`. In a pool of valid
descriptors the result is valid iff `flags != 0` and some available descriptor shares at
least one bit with `flags`; every valid result is an available descriptor that shares at
least one bit with `flags`; and the call returns that result and leaves the available
and the reserved set unchanged. -/
theorem findQueueDescriptor_valid_iff (D : QueueDescriptorDecl) (pool : VulkanQueuePool)
    (flags : Nat) (hvalid : ∀ d ∈ pool.availableDescriptors_, D.isValid d = true) :
    (D.isValid (findQueueDescriptor D pool flags) = true ↔
      flags ≠ 0 ∧ ∃ d ∈ pool.availableDescriptors_, d.queueFlags &&& flags ≠ 0) ∧
    (D.isValid (findQueueDescriptor D pool flags) = true →
      findQueueDescriptor D pool flags ∈ pool.availableDescriptors_ ∧
        (findQueueDescriptor D pool flags).queueFlags &&& flags ≠ 0) ∧
    pool.call D (PoolCall.findQueueDescriptor flags) =
      (pool, PoolReturn.descriptor (findQueueDescriptor D pool flags)) := by
  have hmem : D.isValid (findQueueDescriptor D pool flags) = true →
      findQueueDescriptor D pool flags ∈ pool.availableDescriptors_ ∧
        (findQueueDescriptor D pool flags).queueFlags &&& flags ≠ 0 := by
    intro hv
    rcases findQueueDescriptor_cases D pool flags with h | ⟨_, hm, hs⟩
    · rw [h, D.empty_invalid] at hv
      exact absurd hv (by simp)
    · exact ⟨hm, hs⟩
  refine ⟨⟨fun hv => ?_, fun h => ?_⟩, hmem, rfl⟩
  · obtain ⟨hm, hs⟩ := hmem hv
    refine ⟨?_, _, hm, hs⟩
    rintro rfl
    exact hs (Nat.and_zero _)
  · exact findQueueDescriptor_valid_of_shared D pool flags hvalid h.2

/-- Witness for C17: `TRANSFER` requested from a graphics queue and a transfer queue. -/
theorem findQueueDescriptor_valid_iff_witness :
    indexDecl.isValid (findQueueDescriptor indexDecl
        (ofAvailable [⟨0, 0, 1⟩, ⟨1, 0, 4⟩]) VK_QUEUE_TRANSFER_BIT) = true ↔
      VK_QUEUE_TRANSFER_BIT ≠ 0 ∧
        ∃ d ∈ (ofAvailable [⟨0, 0, 1⟩, ⟨1, 0, 4⟩]).availableDescriptors_,
          d.queueFlags &&& VK_QUEUE_TRANSFER_BIT ≠ 0 :=
  (findQueueDescriptor_valid_iff indexDecl (ofAvailable [⟨0, 0, 1⟩, ⟨1, 0, 4⟩])
    VK_QUEUE_TRANSFER_BIT (by decide)).1

/-! ## Results of native calls -/

theorem getResultFromVkResult_code (s : Int → String) (r : Int) (hr : r ≠ VK_SUCCESS) :
    (getResultFromVkResult s r).code =
      if r = VK_ERROR_LAYER_NOT_PRESENT ∨ r = VK_ERROR_EXTENSION_NOT_PRESENT ∨
          r = VK_ERROR_FEATURE_NOT_PRESENT then Result.Code.Unimplemented
      else if r = VK_ERROR_INCOMPATIBLE_DRIVER ∨ r = VK_ERROR_FORMAT_NOT_SUPPORTED then
        Result.Code.Unsupported
      else if r = VK_ERROR_OUT_OF_HOST_MEMORY ∨ r = VK_ERROR_OUT_OF_DEVICE_MEMORY ∨
          r = VK_ERROR_OUT_OF_POOL_MEMORY ∨ r = VK_ERROR_TOO_MANY_OBJECTS then
        Result.Code.ArgumentOutOfRange
      else Result.Code.RuntimeError := by
  unfold getResultFromVkResult
  rw [if_neg hr]
  simp only
  split_ifs <;> rfl

theorem getResultFromVkResult_code_ne_ok (s : Int → String) (r : Int) (hr : r ≠ VK_SUCCESS) :
    (getResultFromVkResult s r).code ≠ Result.Code.Ok := by
  rw [getResultFromVkResult_code s r hr]
  split_ifs <;> decide

/-- C12, counterexample: the out-of-memory result `VK_ERROR_OUT_OF_HOST_MEMORY` is not
`VK_SUCCESS`, and its `Result` has code `ArgumentOutOfRange`, not `RuntimeError`. -/
theorem getResultFromVkResult_oom_counterexample :
    VK_ERROR_OUT_OF_HOST_MEMORY ≠ VK_SUCCESS ∧
      (getResultFromVkResult noResultString VK_ERROR_OUT_OF_HOST_MEMORY).code =
        Result.Code.ArgumentOutOfRange ∧
      (getResultFromVkResult noResultString VK_ERROR_OUT_OF_HOST_MEMORY).code ≠
        Result.Code.RuntimeError := by
  decide

/-- C12, amended: every `VkResult` other than `VK_SUCCESS` surfaces as an error, never as
`Ok`. The code is `Unimplemented` for `VK_ERROR_LAYER_NOT_PRESENT`,
`VK_ERROR_EXTENSION_NOT_PRESENT` and `VK_ERROR_FEATURE_NOT_PRESENT`; `Unsupported` for
`VK_ERROR_INCOMPATIBLE_DRIVER` and `VK_ERROR_FORMAT_NOT_SUPPORTED`; `ArgumentOutOfRange`
for `VK_ERROR_OUT_OF_HOST_MEMORY`, `VK_ERROR_OUT_OF_DEVICE_MEMORY`,
`VK_ERROR_OUT_OF_POOL_MEMORY` and `VK_ERROR_TOO_MANY_OBJECTS`; and `RuntimeError` for
every other result, with the message of `ivkGetVulkanResultString` in all cases. -/
theorem getResultFromVkResult_error_code (s : Int → String) (r : Int) (hr : r ≠ VK_SUCCESS) :
    (getResultFromVkResult s r).code ≠ Result.Code.Ok ∧
    (getResultFromVkResult s r).message = s r ∧
    ((r = VK_ERROR_LAYER_NOT_PRESENT ∨ r = VK_ERROR_EXTENSION_NOT_PRESENT ∨
        r = VK_ERROR_FEATURE_NOT_PRESENT) →
      (getResultFromVkResult s r).code = Result.Code.Unimplemented) ∧
    ((r = VK_ERROR_INCOMPATIBLE_DRIVER ∨ r = VK_ERROR_FORMAT_NOT_SUPPORTED) →
      (getResultFromVkResult s r).code = Result.Code.Unsupported) ∧
    ((r = VK_ERROR_OUT_OF_HOST_MEMORY ∨ r = VK_ERROR_OUT_OF_DEVICE_MEMORY ∨
        r = VK_ERROR_OUT_OF_POOL_MEMORY ∨ r = VK_ERROR_TOO_MANY_OBJECTS) →
      (getResultFromVkResult s r).code = Result.Code.ArgumentOutOfRange) ∧
    (r ≠ VK_ERROR_LAYER_NOT_PRESENT → r ≠ VK_ERROR_EXTENSION_NOT_PRESENT →
      r ≠ VK_ERROR_FEATURE_NOT_PRESENT → r ≠ VK_ERROR_INCOMPATIBLE_DRIVER →
      r ≠ VK_ERROR_FORMAT_NOT_SUPPORTED → r ≠ VK_ERROR_OUT_OF_HOST_MEMORY →
      r ≠ VK_ERROR_OUT_OF_DEVICE_MEMORY → r ≠ VK_ERROR_OUT_OF_POOL_MEMORY →
      r ≠ VK_ERROR_TOO_MANY_OBJECTS →
      (getResultFromVkResult s r).code = Result.Code.RuntimeError) := by
  refine ⟨getResultFromVkResult_code_ne_ok s r hr, ?_, ?_, ?_, ?_, ?_⟩
  · unfold getResultFromVkResult
    rw [if_neg hr]
    simp only
    split_ifs <;> rfl
  · intro h
    rw [getResultFromVkResult_code s r hr, if_pos h]
  · intro h
    rw [getResultFromVkResult_code s r hr]
    rcases h with rfl | rfl <;> decide
  · intro h
    rw [getResultFromVkResult_code s r hr]
    rcases h with rfl | rfl | rfl | rfl <;> decide
  · intro h1 h2 h3 h4 h5 h6 h7 h8 h9
    rw [getResultFromVkResult_code s r hr]
    simp [h1, h2, h3, h4, h5, h6, h7, h8, h9]

/-- Witness for amended C12: a lost device surfaces with code `RuntimeError`. -/
theorem getResultFromVkResult_error_code_witness :
    (getResultFromVkResult noResultString VK_ERROR_DEVICE_LOST).code =
      Result.Code.RuntimeError :=
  (getResultFromVkResult_error_code noResultString VK_ERROR_DEVICE_LOST
    (by decide)).2.2.2.2.2 (by decide) (by decide) (by decide) (by decide) (by decide)
    (by decide) (by decide) (by decide) (by decide)

/-- C13: a driver failure is never mapped to success. `getResultFromVkResult(r)` is the
default `Result()`, and has code `Ok`, iff `r == VK_SUCCESS`; `setResultFrom(out, r)`
stores exactly `getResultFromVkResult(r)` into `*out` when `out` is non-null, whatever
`*out` held, and does nothing when `out` is null. -/
theorem getResultFromVkResult_ok_iff (s : Int → String) (r : Int) :
    (getResultFromVkResult s r = {} ↔ r = VK_SUCCESS) ∧
    ((getResultFromVkResult s r).code = Result.Code.Ok ↔ r = VK_SUCCESS) ∧
    (∀ old : Result, setResultFrom s (some old) r = some (getResultFromVkResult s r)) ∧
    setResultFrom s none r = none := by
  have hcode : (getResultFromVkResult s r).code = Result.Code.Ok ↔ r = VK_SUCCESS := by
    constructor
    · intro h
      by_contra hr
      exact getResultFromVkResult_code_ne_ok s r hr h
    · rintro rfl
      rfl
  refine ⟨⟨fun h => hcode.1 (by rw [h]), ?_⟩, hcode, fun _ => rfl, rfl⟩
  rintro rfl
  rfl

/-! ## Sample counts -/

/-- C18: `getVulkanSampleCountFlags` rounds up to the next supported sample count. The
result is one of 1, 2, 4, 8, 16, 32, 64; for `numSamples <= 64` it is the smallest of
them that is `>= numSamples` (so 1 for `numSamples = 0`), and it is 64 for
`numSamples > 64`; the function is monotone non-decreasing and returns `n` itself for
every power of two `n <= 64`. -/
theorem getVulkanSampleCountFlags_rounds_up :
    (∀ numSamples : Nat,
      getVulkanSampleCountFlags numSamples ∈ [1, 2, 4, 8, 16, 32, 64] ∧
      (numSamples ≤ 64 → numSamples ≤ getVulkanSampleCountFlags numSamples ∧
        ∀ n ∈ [1, 2, 4, 8, 16, 32, 64], numSamples ≤ n →
          getVulkanSampleCountFlags numSamples ≤ n) ∧
      (64 < numSamples → getVulkanSampleCountFlags numSamples = VK_SAMPLE_COUNT_64_BIT)) ∧
    getVulkanSampleCountFlags 0 = VK_SAMPLE_COUNT_1_BIT ∧
    (∀ a b : Nat, a ≤ b → getVulkanSampleCountFlags a ≤ getVulkanSampleCountFlags b) ∧
    (∀ n ∈ [1, 2, 4, 8, 16, 32, 64], getVulkanSampleCountFlags n = n) ∧
    VK_SAMPLE_COUNT_1_BIT = 1 ∧ VK_SAMPLE_COUNT_2_BIT = 2 ∧ VK_SAMPLE_COUNT_4_BIT = 4 ∧
    VK_SAMPLE_COUNT_8_BIT = 8 ∧ VK_SAMPLE_COUNT_16_BIT = 16 ∧
    VK_SAMPLE_COUNT_32_BIT = 32 ∧ VK_SAMPLE_COUNT_64_BIT = 64 := by
  refine ⟨fun numSamples => ⟨?_, ?_, ?_⟩, rfl, ?_, ?_, rfl, rfl, rfl, rfl, rfl, rfl, rfl⟩
  · unfold getVulkanSampleCountFlags
    split_ifs <;> decide
  · intro h64
    unfold getVulkanSampleCountFlags
    simp only [VK_SAMPLE_COUNT_1_BIT, VK_SAMPLE_COUNT_2_BIT, VK_SAMPLE_COUNT_4_BIT,
      VK_SAMPLE_COUNT_8_BIT, VK_SAMPLE_COUNT_16_BIT, VK_SAMPLE_COUNT_32_BIT,
      VK_SAMPLE_COUNT_64_BIT, List.mem_cons, List.mem_singleton, List.not_mem_nil, or_false]
    split_ifs <;> refine ⟨by omega, ?_⟩ <;> intro n hn hle <;>
      rcases hn with rfl | rfl | rfl | rfl | rfl | rfl | rfl <;> omega
  · intro h64
    unfold getVulkanSampleCountFlags
    split_ifs <;> first | rfl | omega
  · intro a b hab
    unfold getVulkanSampleCountFlags
    simp only [VK_SAMPLE_COUNT_1_BIT, VK_SAMPLE_COUNT_2_BIT, VK_SAMPLE_COUNT_4_BIT,
      VK_SAMPLE_COUNT_8_BIT, VK_SAMPLE_COUNT_16_BIT, VK_SAMPLE_COUNT_32_BIT,
      VK_SAMPLE_COUNT_64_BIT]
    split_ifs <;> omega
  · decide

/-! ## Texture formats -/

/-- C19, counterexample: `Z_UNorm24` is handled and converts to
`VK_FORMAT_D24_UNORM_S8_UINT`, which is not `VK_FORMAT_UNDEFINED`, and that format
converts back to `S8_UInt_Z24_UNorm`, not to `Z_UNorm24`. -/
theorem textureFormat_roundtrip_counterexample :
    textureFormatToVkFormat TextureFormat.Z_UNorm24 =
        Checked.ok VkFormat.VK_FORMAT_D24_UNORM_S8_UINT ∧
      VkFormat.VK_FORMAT_D24_UNORM_S8_UINT ≠ VkFormat.VK_FORMAT_UNDEFINED ∧
      vkFormatToTextureFormat (textureFormatToVkFormat TextureFormat.Z_UNorm24).value =
        Checked.ok TextureFormat.S8_UInt_Z24_UNorm ∧
      (vkFormatToTextureFormat (textureFormatToVkFormat TextureFormat.Z_UNorm24).value).value ≠
        TextureFormat.Z_UNorm24 := by
  decide

/-- C19, amended: for every texture format `f` other than `Z_UNorm24` that
`textureFormatToVkFormat` handles with a result other than `VK_FORMAT_UNDEFINED`
(the depth formats `Z_UNorm16`, `Z_UNorm32` and `S8_UInt_Z24_UNorm` included),
`vkFormatToTextureFormat(textureFormatToVkFormat(f)) == f` without reaching the
"not handled" assertion; `Z_UNorm24` shares `VK_FORMAT_D24_UNORM_S8_UINT` with
`S8_UInt_Z24_UNorm`, and that format converts back to `S8_UInt_Z24_UNorm`. -/
theorem textureFormat_roundtrip (f : TextureFormat) (v : VkFormat)
    (hf : textureFormatToVkFormat f = Checked.ok v) (hv : v ≠ VkFormat.VK_FORMAT_UNDEFINED)
    (hz : f ≠ TextureFormat.Z_UNorm24) :
    vkFormatToTextureFormat v = Checked.ok f ∧
    textureFormatToVkFormat TextureFormat.Z_UNorm24 =
      textureFormatToVkFormat TextureFormat.S8_UInt_Z24_UNorm ∧
    vkFormatToTextureFormat VkFormat.VK_FORMAT_D24_UNORM_S8_UINT =
      Checked.ok TextureFormat.S8_UInt_Z24_UNorm := by
  refine ⟨?_, rfl, rfl⟩
  cases f <;> simp only [textureFormatToVkFormat, Checked.ok.injEq, reduceCtorEq] at hf <;>
    subst hf <;> first | rfl | exact absurd rfl hv | exact absurd rfl hz

/-- Witness for amended C19 at the depth format `Z_UNorm32`. -/
theorem textureFormat_roundtrip_witness :
    vkFormatToTextureFormat VkFormat.VK_FORMAT_D32_SFLOAT =
      Checked.ok TextureFormat.Z_UNorm32 :=
  (textureFormat_roundtrip TextureFormat.Z_UNorm32 VkFormat.VK_FORMAT_D32_SFLOAT rfl
    (by decide) (by decide)).1

/-! ## Deferred destruction by the object wrappers -/

/-- C14: object wrappers defer native destruction. The destructor of a
`VulkanImageView` or of a `VulkanSampler` makes no Vulkan call itself; it hands exactly
one task to `ctx_.deferredTask`, and the body of that task makes exactly one call,
`vkDestroyImageView` / `vkDestroySampler`, on the device and the handle
(`vkImageView_` / `vkSampler_`) that the wrapper held when it was destroyed. -/
theorem destructors_defer_destruction (view : VulkanImageView) (sampler : VulkanSampler) :
    Effect.nativeCalls view.destructor = [] ∧
    Effect.deferredTasks view.destructor =
      [[NativeCall.vkDestroyImageView view.device_ view.vkImageView_ none]] ∧
    Effect.nativeCalls sampler.destructor = [] ∧
    Effect.deferredTasks sampler.destructor =
      [[NativeCall.vkDestroySampler sampler.device_ sampler.vkSampler_ none]] :=
  ⟨rfl, rfl, rfl, rfl⟩

/-! ## Queue creation requests -/

theorem mapPushBack_keys_mem (f : Nat) (q : VulkanQueueDescriptor)
    (m : List (Nat × List VulkanQueueDescriptor)) (k : Nat) :
    k ∈ (mapPushBack f q m).map Prod.fst ↔ k = f ∨ k ∈ m.map Prod.fst := by
  induction m with
  | nil => simp [mapPushBack]
  | cons e rest ih =>
    obtain ⟨k0, v⟩ := e
    unfold mapPushBack
    split_ifs with h1 h2
    · simp
    · subst h2
      simp
    · simp only [List.map_cons, List.mem_cons, ih]
      tauto

theorem mapPushBack_keys_sorted (f : Nat) (q : VulkanQueueDescriptor)
    (m : List (Nat × List VulkanQueueDescriptor))
    (hs : (m.map Prod.fst).Pairwise (· < ·)) :
    ((mapPushBack f q m).map Prod.fst).Pairwise (· < ·) := by
  induction m with
  | nil => simp [mapPushBack]
  | cons e rest ih =>
    obtain ⟨k0, v⟩ := e
    simp only [List.map_cons, List.pairwise_cons] at hs
    unfold mapPushBack
    split_ifs with h1 h2
    · simp only [List.map_cons, List.pairwise_cons, List.mem_cons]
      refine ⟨?_, hs.1, hs.2⟩
      rintro a (rfl | ha)
      · exact h1
      · exact lt_trans h1 (hs.1 a ha)
    · simpa using hs
    · simp only [List.map_cons, List.pairwise_cons]
      refine ⟨?_, ih hs.2⟩
      intro a ha
      rcases (mapPushBack_keys_mem f q rest a).1 ha with rfl | ha'
      · omega
      · exact hs.1 a ha'

theorem mapPushBack_nonempty (f : Nat) (q : VulkanQueueDescriptor)
    (m : List (Nat × List VulkanQueueDescriptor)) (hm : ∀ e ∈ m, e.2 ≠ []) :
    ∀ e ∈ mapPushBack f q m, e.2 ≠ [] := by
  induction m with
  | nil => simp [mapPushBack]
  | cons e0 rest ih =>
    obtain ⟨k0, v⟩ := e0
    unfold mapPushBack
    split_ifs with h1 h2
    · intro e he
      rcases List.mem_cons.1 he with rfl | he'
      · simp
      · exact hm e he'
    · intro e he
      rcases List.mem_cons.1 he with rfl | he'
      · simp
      · exact hm e (List.mem_cons_of_mem _ he')
    · intro e he
      rcases List.mem_cons.1 he with rfl | he'
      · exact hm _ (List.mem_cons_self _ _)
      · exact ih (fun e he => hm e (List.mem_cons_of_mem _ he)) e he'

theorem lookup_cons (a : Nat) (v : List VulkanQueueDescriptor)
    (m : List (Nat × List VulkanQueueDescriptor)) (k : Nat) :
    ((((a, v) :: m).filter fun e => e.1 = k).map fun e => e.2.length).sum =
      (if a = k then v.length else 0) +
        ((m.filter fun e => e.1 = k).map fun e => e.2.length).sum := by
  by_cases h : a = k
  · simp [List.filter_cons, h]
  · simp [List.filter_cons, h]

theorem mapPushBack_lookup (f : Nat) (q : VulkanQueueDescriptor)
    (m : List (Nat × List VulkanQueueDescriptor)) (k : Nat) :
    (((mapPushBack f q m).filter fun e => e.1 = k).map fun e => e.2.length).sum =
      ((m.filter fun e => e.1 = k).map fun e => e.2.length).sum + if k = f then 1 else 0 := by
  induction m with
  | nil =>
    unfold mapPushBack
    rw [lookup_cons]
    by_cases hk : k = f
    · subst hk
      simp
    · have : ¬ f = k := fun h => hk h.symm
      simp [hk, this]
  | cons e0 rest ih =>
    obtain ⟨k0, v⟩ := e0
    unfold mapPushBack
    split_ifs with h1 h2 h3 h4 h5
    all_goals simp only [lookup_cons, ih, List.length_append, List.length_singleton,
      List.length_nil]
    all_goals split_ifs <;> omega

theorem mapPushBack_total (f : Nat) (q : VulkanQueueDescriptor)
    (m : List (Nat × List VulkanQueueDescriptor)) :
    ((mapPushBack f q m).map fun e => e.2.length).sum =
      (m.map fun e => e.2.length).sum + 1 := by
  induction m with
  | nil => simp [mapPushBack]
  | cons e0 rest ih =>
    obtain ⟨k0, v⟩ := e0
    unfold mapPushBack
    split_ifs with h1 h2
    · simp; omega
    · simp; omega
    · simp [ih]; omega

theorem foldl_mapPushBack_keys (l : List VulkanQueueDescriptor) :
    ∀ (m : List (Nat × List VulkanQueueDescriptor)) (k : Nat),
      k ∈ (l.foldl (fun queues queue => mapPushBack queue.familyIndex queue queues) m).map
          Prod.fst ↔
        k ∈ m.map Prod.fst ∨ ∃ d ∈ l, d.familyIndex = k := by
  induction l with
  | nil => intro m k; simp
  | cons q rest ih =>
    intro m k
    rw [List.foldl_cons, ih, mapPushBack_keys_mem]
    simp only [List.mem_cons, exists_eq_or_imp]
    constructor
    · rintro ((h | h) | h)
      · exact Or.inr (Or.inl h.symm)
      · exact Or.inl h
      · exact Or.inr (Or.inr h)
    · rintro (h | h | h)
      · exact Or.inl (Or.inr h)
      · exact Or.inl (Or.inl h.symm)
      · exact Or.inr h

theorem foldl_mapPushBack_sorted (l : List VulkanQueueDescriptor) :
    ∀ m : List (Nat × List VulkanQueueDescriptor), (m.map Prod.fst).Pairwise (· < ·) →
      ((l.foldl (fun queues queue => mapPushBack queue.familyIndex queue queues) m).map
        Prod.fst).Pairwise (· < ·) := by
  induction l with
  | nil => intro m h; exact h
  | cons q rest ih =>
    intro m h
    rw [List.foldl_cons]
    exact ih _ (mapPushBack_keys_sorted _ _ _ h)

theorem foldl_mapPushBack_lookup (l : List VulkanQueueDescriptor) :
    ∀ (m : List (Nat × List VulkanQueueDescriptor)) (k : Nat),
      (((l.foldl (fun queues queue => mapPushBack queue.familyIndex queue queues) m).filter
          fun e => e.1 = k).map fun e => e.2.length).sum =
        ((m.filter fun e => e.1 = k).map fun e => e.2.length).sum +
          l.countP (fun d => d.familyIndex = k) := by
  induction l with
  | nil => intro m k; simp
  | cons q rest ih =>
    intro m k
    rw [List.foldl_cons, ih, mapPushBack_lookup, List.countP_cons]
    have : (if k = q.familyIndex then 1 else 0) =
        if (decide (q.familyIndex = k)) = true then 1 else 0 := by
      by_cases h : k = q.familyIndex
      · simp [h]
      · have : ¬ q.familyIndex = k := fun e => h e.symm
        simp [h, this]
    rw [this]
    omega

theorem foldl_mapPushBack_total (l : List VulkanQueueDescriptor) :
    ∀ m : List (Nat × List VulkanQueueDescriptor),
      ((l.foldl (fun queues queue => mapPushBack queue.familyIndex queue queues) m).map
          fun e => e.2.length).sum =
        (m.map fun e => e.2.length).sum + l.length := by
  induction l with
  | nil => intro m; simp
  | cons q rest ih =>
    intro m
    rw [List.foldl_cons, ih, mapPushBack_total, List.length_cons]
    omega

theorem lookup_of_sorted (m : List (Nat × List VulkanQueueDescriptor))
    (hs : (m.map Prod.fst).Pairwise (· < ·)) :
    ∀ e ∈ m, ((m.filter fun x => x.1 = e.1).map fun x => x.2.length).sum = e.2.length := by
  induction m with
  | nil => intro e he; cases he
  | cons e0 rest ih =>
    obtain ⟨k0, v⟩ := e0
    simp only [List.map_cons, List.pairwise_cons] at hs
    have hnone : ∀ k, k ≤ k0 →
        ((rest.filter fun x => x.1 = k).map fun x => x.2.length).sum = 0 := by
      intro k hk
      have : rest.filter (fun x => x.1 = k) = [] := by
        rw [List.filter_eq_nil_iff]
        intro x hx
        have := hs.1 x.1 (List.mem_map_of_mem Prod.fst hx)
        simp only [decide_eq_true_eq]
        omega
      rw [this]
      rfl
    intro e he
    rw [lookup_cons]
    rcases List.mem_cons.1 he with rfl | he'
    · simp [hnone k0 (le_refl _)]
    · have hlt := hs.1 e.1 (List.mem_map_of_mem Prod.fst he')
      have hne : ¬ k0 = e.1 := by omega
      rw [if_neg hne, ih hs.2 e he']
      omega

theorem getQueueCreationInfos_queueCount (pool : VulkanQueuePool) :
    ∀ q ∈ pool.getQueueCreationInfos,
      q.queueCount =
        pool.reservedDescriptors_.countP (fun d => d.familyIndex = q.queueFamilyIndex) %
          u32 := by
  have hsorted := foldl_mapPushBack_sorted pool.reservedDescriptors_ [] (by simp)
  have hlook := foldl_mapPushBack_lookup pool.reservedDescriptors_ []
  intro q hq
  simp only [getQueueCreationInfos, List.mem_map] at hq
  obtain ⟨e, he, rfl⟩ := hq
  simp only
  rw [← lookup_of_sorted _ hsorted e he, hlook]
  simp

theorem getQueueCreationInfos_families (pool : VulkanQueuePool) :
    (pool.getQueueCreationInfos.map fun q => q.queueFamilyIndex).Pairwise (· < ·) ∧
    (∀ f : Nat, f ∈ (pool.getQueueCreationInfos.map fun q => q.queueFamilyIndex) ↔
      ∃ d ∈ pool.reservedDescriptors_, d.familyIndex = f) := by
  have hsorted := foldl_mapPushBack_sorted pool.reservedDescriptors_ [] (by simp)
  have hkeys := foldl_mapPushBack_keys pool.reservedDescriptors_ []
  constructor
  · simpa [getQueueCreationInfos, List.map_map, Function.comp_def] using hsorted
  · intro f
    have := hkeys f
    simp only [List.map_nil, List.not_mem_nil, false_or] at this
    simpa [getQueueCreationInfos, List.map_map, Function.comp_def] using this

theorem eq_singleton_of_sorted_mem (l : List Nat) (a : Nat) (hs : l.Pairwise (· < ·))
    (hm : ∀ f, f ∈ l ↔ f = a) : l = [a] := by
  cases l with
  | nil => exact absurd ((hm a).2 rfl) (List.not_mem_nil a)
  | cons x t =>
    have hx : x = a := (hm x).1 (List.mem_cons_self x t)
    subst hx
    cases t with
    | nil => rfl
    | cons y t2 =>
      exfalso
      have hy : y = x := (hm y).1 (List.mem_cons_of_mem _ (List.mem_cons_self y t2))
      have hlt := (List.pairwise_cons.1 hs).1 y (List.mem_cons_self y t2)
      omega

theorem getQueueCreationInfos_one_family (n : Nat) (hn : 0 < n) :
    ((List.range n).map fun j =>
        (⟨j, 0, VK_QUEUE_GRAPHICS_BIT⟩ : VulkanQueueDescriptor)).Nodup ∧
      ((List.range n).map fun j =>
        (⟨j, 0, VK_QUEUE_GRAPHICS_BIT⟩ : VulkanQueueDescriptor)).countP
          (fun d => d.familyIndex = 0) = n ∧
      (VulkanQueuePool.getQueueCreationInfos
        ⟨[], (List.range n).map fun j => ⟨j, 0, VK_QUEUE_GRAPHICS_BIT⟩⟩).map
          (fun q => (q.queueFamilyIndex, q.queueCount)) = [(0, n % u32)] := by
  have hcount : ((List.range n).map fun j =>
      (⟨j, 0, VK_QUEUE_GRAPHICS_BIT⟩ : VulkanQueueDescriptor)).countP
        (fun d => d.familyIndex = 0) = n := by
    rw [List.countP_eq_length_filter, List.filter_eq_self.2 (by
      intro d hd
      obtain ⟨j, _, rfl⟩ := List.mem_map.1 hd
      simp), List.length_map, List.length_range]
  refine ⟨?_, hcount, ?_⟩
  · apply List.Nodup.map _ (List.nodup_range _)
    intro a b hab
    simpa using hab
  · obtain ⟨hsorted, hmem⟩ := getQueueCreationInfos_families
      ⟨[], (List.range n).map fun j => ⟨j, 0, VK_QUEUE_GRAPHICS_BIT⟩⟩
    have hq := getQueueCreationInfos_queueCount
      ⟨[], (List.range n).map fun j => ⟨j, 0, VK_QUEUE_GRAPHICS_BIT⟩⟩
    have hfam := eq_singleton_of_sorted_mem _ 0 hsorted (by
      intro f
      rw [hmem f]
      constructor
      · rintro ⟨d, hd, rfl⟩
        obtain ⟨j, _, rfl⟩ := List.mem_map.1 hd
        rfl
      · rintro rfl
        exact ⟨⟨0, 0, VK_QUEUE_GRAPHICS_BIT⟩,
          List.mem_map.2 ⟨0, List.mem_range.2 hn, rfl⟩, rfl⟩)
    simp only at hq
    generalize VulkanQueuePool.getQueueCreationInfos
      ⟨[], (List.range n).map fun j => ⟨j, 0, VK_QUEUE_GRAPHICS_BIT⟩⟩ = infos at hfam hq ⊢
    cases infos with
    | nil => simp at hfam
    | cons q rest =>
      cases rest with
      | cons q2 rest2 => simp at hfam
      | nil =>
        have h0 : q.queueFamilyIndex = 0 := by simpa using hfam
        have hc := hq q (List.mem_singleton.2 rfl)
        rw [h0, hcount] at hc
        simp [h0, hc]

/-- C11, counterexample: with the `2^32` descriptors of family 0 and queue indices
`0, ..., 2^32 - 1` reserved (a duplicate-free set), `getQueueCreationInfos` returns one
request for family 0 whose `queueCount` is 0, not the `2^32` reserved descriptors of
that family: `static_cast<uint32_t>` truncates the size. -/
theorem getQueueCreationInfos_truncates_counterexample :
    ((List.range (2 ^ 32)).map fun j =>
        (⟨j, 0, VK_QUEUE_GRAPHICS_BIT⟩ : VulkanQueueDescriptor)).Nodup ∧
      ((List.range (2 ^ 32)).map fun j =>
        (⟨j, 0, VK_QUEUE_GRAPHICS_BIT⟩ : VulkanQueueDescriptor)).countP
          (fun d => d.familyIndex = 0) = 2 ^ 32 ∧
      (VulkanQueuePool.getQueueCreationInfos
        ⟨[], (List.range (2 ^ 32)).map fun j => ⟨j, 0, VK_QUEUE_GRAPHICS_BIT⟩⟩).map
          (fun q => (q.queueFamilyIndex, q.queueCount)) = [(0, 0)] := by
  have h := getQueueCreationInfos_one_family (2 ^ 32) (by norm_num)
  have hz : (2 : Nat) ^ 32 % u32 = 0 := by norm_num [u32]
  rw [hz] at h
  exact h

/-- C11, amended: `getQueueCreationInfos` groups the reserved descriptors by family. For
every reservation state the family indices of the requests are strictly ascending (so
each occurs once) and are exactly the `familyIndex` values that occur in the reserved
set; the `queueCount` of a request is the number of reserved descriptors of its family
reduced to `uint32_t`; nothing reserved gives no request; every request has the
structure type of a queue creation request and priority `1.0`; the call returns this list
and leaves the pool as it is; and two pools with the same reserved set give the same
list. When every family has fewer than `2^32` reserved descriptors, the `queueCount` of
a request is the number of reserved descriptors of its family and the counts sum to the
size of the reserved set. -/
theorem getQueueCreationInfos_groups (D : QueueDescriptorDecl) (pool : VulkanQueuePool) :
    (pool.getQueueCreationInfos.map fun q => q.queueFamilyIndex).Pairwise (· < ·) ∧
    (∀ f : Nat, f ∈ (pool.getQueueCreationInfos.map fun q => q.queueFamilyIndex) ↔
      ∃ d ∈ pool.reservedDescriptors_, d.familyIndex = f) ∧
    (∀ q ∈ pool.getQueueCreationInfos,
      q.queueCount =
        pool.reservedDescriptors_.countP (fun d => d.familyIndex = q.queueFamilyIndex) %
          u32) ∧
    (pool.reservedDescriptors_ = [] → pool.getQueueCreationInfos = []) ∧
    (∀ q ∈ pool.getQueueCreationInfos,
      q.pQueuePriorities = 1 ∧ q.sType = VK_STRUCTURE_TYPE_DEVICE_QUEUE_CREATE_INFO) ∧
    pool.call D PoolCall.getQueueCreationInfos =
      (pool, PoolReturn.infos pool.getQueueCreationInfos) ∧
    (∀ other : VulkanQueuePool, other.reservedDescriptors_ = pool.reservedDescriptors_ →
      other.getQueueCreationInfos = pool.getQueueCreationInfos) ∧
    ((∀ f : Nat, pool.reservedDescriptors_.countP (fun d => d.familyIndex = f) < u32) →
      (∀ q ∈ pool.getQueueCreationInfos,
        q.queueCount =
          pool.reservedDescriptors_.countP (fun d => d.familyIndex = q.queueFamilyIndex)) ∧
      (pool.getQueueCreationInfos.map fun q => q.queueCount).sum =
        pool.reservedDescriptors_.length) := by
  have hsorted := foldl_mapPushBack_sorted pool.reservedDescriptors_ [] (by simp)
  have hlook := foldl_mapPushBack_lookup pool.reservedDescriptors_ []
  have htotal := foldl_mapPushBack_total pool.reservedDescriptors_ []
  have hlen : ∀ e ∈ pool.reservedDescriptors_.foldl
      (fun queues queue => mapPushBack queue.familyIndex queue queues) [],
      e.2.length = pool.reservedDescriptors_.countP (fun d => d.familyIndex = e.1) := by
    intro e he
    rw [← lookup_of_sorted _ hsorted e he, hlook]
    simp
  refine ⟨(getQueueCreationInfos_families pool).1, (getQueueCreationInfos_families pool).2,
    getQueueCreationInfos_queueCount pool, ?_, ?_, rfl, ?_, ?_⟩
  · intro h
    simp [getQueueCreationInfos, h]
  · intro q hq
    simp only [getQueueCreationInfos, List.mem_map] at hq
    obtain ⟨e, _, rfl⟩ := hq
    exact ⟨rfl, rfl⟩
  · intro other h
    simp only [getQueueCreationInfos, h]
  · intro hsize
    have hsmall : ∀ e ∈ pool.reservedDescriptors_.foldl
        (fun queues queue => mapPushBack queue.familyIndex queue queues) [],
        e.2.length % u32 = e.2.length := by
      intro e he
      apply Nat.mod_eq_of_lt
      rw [hlen e he]
      exact hsize e.1
    constructor
    · intro q hq
      rw [getQueueCreationInfos_queueCount pool q hq]
      exact Nat.mod_eq_of_lt (hsize _)
    · simp only [getQueueCreationInfos, List.map_map, Function.comp_def]
      rw [List.map_congr_left hsmall, htotal]
      simp

/-- Witness for amended C11: three reserved queues of families 1, 0, 1 give the requests
`(family 0, count 1)` and `(family 1, count 2)`. -/
theorem getQueueCreationInfos_groups_witness :
    (VulkanQueuePool.getQueueCreationInfos
        ⟨[], [⟨0, 1, 4⟩, ⟨0, 0, 3⟩, ⟨1, 1, 4⟩]⟩).map (fun q => q.queueCount) = [1, 2] ∧
      ((VulkanQueuePool.getQueueCreationInfos
        ⟨[], [⟨0, 1, 4⟩, ⟨0, 0, 3⟩, ⟨1, 1, 4⟩]⟩).map fun q => q.queueCount).sum = 3 :=
  ⟨by decide,
   ((getQueueCreationInfos_groups indexDecl ⟨[], [⟨0, 1, 4⟩, ⟨0, 0, 3⟩, ⟨1, 1, 4⟩]⟩).2.2.2.2.2.2.2
    (fun f => lt_of_le_of_lt (List.countP_le_length _) (by decide))).2⟩

/-! ## Submission counters -/

theorem runFrom_append (events1 : List ExecutorEvent) :
    ∀ (e : Executor) (handles : List SubmitHandle) (events2 : List ExecutorEvent),
      Executor.runFrom e handles (events1 ++ events2) =
        Executor.runFrom (Executor.runFrom e handles events1).1
          (Executor.runFrom e handles events1).2 events2 := by
  induction events1 with
  | nil => intro e handles events2; rfl
  | cons ev rest ih =>
    intro e handles events2
    simp only [List.cons_append, Executor.runFrom]
    exact ih _ _ _

theorem acquire_counter (e : Executor) :
    e.acquire.1.self.submitCounter_ = e.self.submitCounter_ ∧
      e.acquire.1.self.lastSubmitHandle_ = e.self.lastSubmitHandle_ ∧
      (∀ h, e.acquire.2 ≠ ExecutorReturn.handle h) := by
  unfold Executor.acquire
  split
  · exact ⟨rfl, rfl, fun h => by simp⟩
  · split
    · exact ⟨rfl, rfl, fun h => by simp⟩
    · exact ⟨rfl, rfl, fun h => by simp⟩

theorem completed_counter (e : Executor) (slot : Nat) :
    (e.completed slot).1.self.submitCounter_ = e.self.submitCounter_ ∧
      (e.completed slot).1.self.lastSubmitHandle_ = e.self.lastSubmitHandle_ ∧
      (∀ h, (e.completed slot).2 ≠ ExecutorReturn.handle h) := by
  unfold Executor.completed
  split
  · exact ⟨rfl, rfl, fun h => by simp⟩
  · exact ⟨rfl, rfl, fun h => by simp⟩

theorem submit_cases (e : Executor) (slot : Nat) :
    ((e.submit slot).1 = e ∧ (e.submit slot).2 = ExecutorReturn.usageError) ∨
      ((e.submit slot).2 = ExecutorReturn.handle ⟨slot % u32, e.self.submitCounter_⟩ ∧
        (e.submit slot).1.self.submitCounter_ = Executor.nextCounter e.self.submitCounter_ ∧
        (e.submit slot).1.self.lastSubmitHandle_ = ⟨slot % u32, e.self.submitCounter_⟩) := by
  unfold Executor.submit
  split
  · exact Or.inl ⟨rfl, rfl⟩
  · split
    · exact Or.inr ⟨rfl, rfl, rfl⟩
    · exact Or.inl ⟨rfl, rfl⟩

theorem record_of_not_handle (handles : List SubmitHandle) (r : ExecutorReturn)
    (h : ∀ x, r ≠ ExecutorReturn.handle x) : Executor.record handles r = handles := by
  cases r with
  | handle x => exact absurd rfl (h x)
  | slot _ => rfl
  | blocked => rfl
  | usageError => rfl
  | nothing => rfl

theorem submitInv_push (e e2 : Executor) (handles : List SubmitHandle) (b : Nat)
    (hinv : SubmitInv e handles)
    (hc : e2.self.submitCounter_ = Executor.nextCounter e.self.submitCounter_)
    (hl : e2.self.lastSubmitHandle_ = ⟨b, e.self.submitCounter_⟩) :
    SubmitInv e2 (handles ++ [⟨b, e.self.submitCounter_⟩]) := by
  obtain ⟨h1, h2, _⟩ := hinv
  refine ⟨?_, ?_, ?_⟩
  · rw [hc, h1, List.length_append, List.length_singleton]
    have hm : u32 - 1 = 4294967295 := by norm_num [u32]
    rw [hm]
    unfold Executor.nextCounter
    simp only [u32]
    split_ifs <;> omega
  · rw [List.map_append, h2, List.length_append, List.length_singleton, List.range_succ,
      List.map_append, h1]
    rfl
  · rw [hl, List.getLast?_concat]
    rfl

theorem step_inv (e : Executor) (handles : List SubmitHandle) (ev : ExecutorEvent)
    (hinv : SubmitInv e handles) :
    SubmitInv (e.step ev).1 (Executor.record handles (e.step ev).2) := by
  cases ev with
  | acquire =>
    obtain ⟨h1, h2, h3⟩ := acquire_counter e
    simp only [Executor.step]
    rw [record_of_not_handle _ _ h3]
    exact ⟨h1 ▸ hinv.1, hinv.2.1, h2 ▸ hinv.2.2⟩
  | completed slot =>
    obtain ⟨h1, h2, h3⟩ := completed_counter e slot
    simp only [Executor.step]
    rw [record_of_not_handle _ _ h3]
    exact ⟨h1 ▸ hinv.1, hinv.2.1, h2 ▸ hinv.2.2⟩
  | submit slot =>
    simp only [Executor.step]
    rcases submit_cases e slot with ⟨h1, h2⟩ | ⟨h1, h2, h3⟩
    · rw [h1, h2]
      exact hinv
    · rw [h1]
      exact submitInv_push e _ handles _ hinv h2 h3

theorem runFrom_inv (events : List ExecutorEvent) :
    ∀ (e : Executor) (handles : List SubmitHandle), SubmitInv e handles →
      SubmitInv (Executor.runFrom e handles events).1 (Executor.runFrom e handles events).2 := by
  induction events with
  | nil => intro e handles h; exact h
  | cons ev rest ih =>
    intro e handles h
    simp only [Executor.runFrom]
    exact ih _ _ (step_inv e handles ev h)

theorem run_inv_initial (events : List ExecutorEvent) :
    SubmitInv (Executor.run events).1 (Executor.run events).2 :=
  runFrom_inv events Executor.initial [] ⟨rfl, rfl, rfl⟩

theorem submitId_getElem (handles : List SubmitHandle)
    (h : handles.map (fun h => h.submitId_) =
      (List.range handles.length).map (fun k => k % (u32 - 1) + 1))
    (k : Nat) (hk : k < handles.length) : handles[k].submitId_ = k % (u32 - 1) + 1 := by
  have h1 : (handles.map (fun h => h.submitId_))[k]? = some handles[k].submitId_ := by
    simp [hk]
  rw [h] at h1
  simp [hk] at h1
  exact h1.symm

theorem acquire_of_free (e : Executor) (w : CommandBufferWrapper)
    (hw : e.self.buffers_[0]? = some w) (hfree : e.isFree 0 = true) :
    e.acquire =
      ({ e with
          self := { e.self with
            buffers_ := e.self.buffers_.set 0 { w with isEncoding_ := true }
            numAvailableCommandBuffers_ :=
              (e.self.numAvailableCommandBuffers_ + u32 - 1) % u32 } },
        ExecutorReturn.slot 0) := by
  have hlen : e.self.buffers_.length ≠ 0 := by
    intro h0
    rw [List.length_eq_zero] at h0
    rw [h0] at hw
    simp at hw
  obtain ⟨n, hn⟩ := Nat.exists_eq_succ_of_ne_zero hlen
  have hfind : (List.range e.self.buffers_.length).find? e.isFree = some 0 := by
    rw [hn, List.range_succ_eq_map, List.find?_cons_of_pos _ hfree]
  unfold Executor.acquire
  rw [hfind]
  simp only [hw]

theorem round_from_free (e : Executor) (handles : List SubmitHandle)
    (hfree : e.isFree 0 = true) :
    (Executor.runFrom e handles
        [ExecutorEvent.acquire, ExecutorEvent.submit 0, ExecutorEvent.completed 0]).2 =
      handles ++ [⟨0, e.self.submitCounter_⟩] ∧
    (Executor.runFrom e handles
        [ExecutorEvent.acquire, ExecutorEvent.submit 0, ExecutorEvent.completed 0]).1.isFree 0 =
      true := by
  have hfree2 := hfree
  unfold Executor.isFree at hfree2
  cases hw : e.self.buffers_[0]? with
  | none => rw [hw] at hfree2; simp at hfree2
  | some w =>
    rw [hw] at hfree2
    have hnot : 0 ∉ e.unfinished := by
      simp only [Bool.and_eq_true, Bool.not_eq_true'] at hfree2
      have h2 := hfree2.2
      intro hmem
      have h3 : e.unfinished.contains 0 = true := by simpa using hmem
      rw [h3] at h2
      exact absurd h2 (by simp)
    have hlt : 0 < e.self.buffers_.length := by
      by_contra h0
      have : e.self.buffers_ = [] := List.length_eq_zero.1 (by omega)
      rw [this] at hw
      simp at hw
    simp only [Executor.runFrom, Executor.step, acquire_of_free e w hw hfree, Executor.record]
    simp [Executor.submit, Executor.completed, Executor.record, Executor.isFree, hlt, hnot, u32]

theorem submitRounds_run (n : Nat) :
    (Executor.run (submitRounds n)).2.length = n ∧
      (Executor.run (submitRounds n)).1.isFree 0 = true := by
  induction n with
  | zero => exact ⟨rfl, by decide⟩
  | succ n ih =>
    have hr := round_from_free (Executor.run (submitRounds n)).1
      (Executor.run (submitRounds n)).2 ih.2
    simp only [submitRounds, Executor.run, runFrom_append] at hr ⊢
    simp only [Executor.run] at ih
    rw [hr.1]
    exact ⟨by rw [List.length_append, ih.1]; rfl, hr.2⟩

/-- C15, counterexample: over `2^32` rounds of acquire, submit and completion on slot 0
of a fresh executor, `submit` returns `2^32` handles; the first has counter 1 and the
last has counter 1 again, so the counter of the last is not above that of the first. -/
theorem submit_counter_wraps_counterexample :
    (Executor.run (submitRounds (2 ^ 32))).2.length = 2 ^ 32 ∧
      ((Executor.run (submitRounds (2 ^ 32))).2.map fun h => h.submitId_).head? = some 1 ∧
      ((Executor.run (submitRounds (2 ^ 32))).2.map fun h => h.submitId_).getLast? = some 1 := by
  have hlen := (submitRounds_run (2 ^ 32)).1
  have hids := (run_inv_initial (submitRounds (2 ^ 32))).2.1
  rw [hlen] at hids
  refine ⟨hlen, ?_, ?_⟩
  · rw [hids, List.head?_eq_getElem?, List.getElem?_map, List.getElem?_range (by norm_num)]
    rfl
  · rw [hids, List.getLast?_eq_getElem?, List.length_map, List.length_range,
      List.getElem?_map, List.getElem?_range (by norm_num)]
    simp only [Option.map_some', u32]
    norm_num

/-- C15, amended: submission counters strictly increase until the `uint32_t` counter
wraps. For every sequence of acquire / submit / completion events on a fresh executor:
no handle returned by `submit` is empty, and `getLastSubmitHandle()` is the handle
returned by the latest `submit`, or the empty handle when nothing has been submitted;
and when `submit` returns fewer than `2^32` handles, of two returned handles the earlier
has the smaller `submitId_`, and the `k`-th returned handle (from 0) has
`submitId_ = k + 1`, so the first has counter 1. -/
theorem submit_counters_increase (events : List ExecutorEvent) :
    (∀ h ∈ (Executor.run events).2, h.empty = false) ∧
    (∀ h, (Executor.run events).2.getLast? = some h →
      (Executor.run events).1.getLastSubmitHandle = h) ∧
    ((Executor.run events).2 = [] →
      (Executor.run events).1.getLastSubmitHandle = {}) ∧
    ((Executor.run events).2.length < u32 →
      (Executor.run events).2.Pairwise (fun h1 h2 => h1.submitId_ < h2.submitId_) ∧
      (∀ (k : Nat) (hk : k < (Executor.run events).2.length),
        ((Executor.run events).2.get ⟨k, hk⟩).submitId_ = k + 1) ∧
      (∀ h, (Executor.run events).2.head? = some h → h.submitId_ = 1)) := by
  obtain ⟨_, hids, hlast⟩ := run_inv_initial events
  refine ⟨?_, ?_, ?_, ?_⟩
  · intro h hh
    obtain ⟨k, hk, rfl⟩ := List.getElem_of_mem hh
    simp [SubmitHandle.empty, submitId_getElem _ hids k hk]
  · intro h hh
    simp only [Executor.getLastSubmitHandle, VulkanImmediateCommands.getLastSubmitHandle]
    rw [hlast, hh]
    rfl
  · intro hnil
    simp only [Executor.getLastSubmitHandle, VulkanImmediateCommands.getLastSubmitHandle]
    rw [hlast, hnil]
    rfl
  · intro hbound
    have key : ∀ (k : Nat) (hk : k < (Executor.run events).2.length),
        ((Executor.run events).2[k]).submitId_ = k + 1 := by
      intro k hk
      rw [submitId_getElem _ hids k hk]
      have hm : u32 - 1 = 4294967295 := by norm_num [u32]
      rw [hm]
      simp only [u32] at hbound
      omega
    refine ⟨?_, ?_, ?_⟩
    · rw [List.pairwise_iff_getElem]
      intro i j hi hj hij
      rw [key i hi, key j hj]
      omega
    · intro k hk
      exact key k hk
    · intro h hh
      rw [List.head?_eq_getElem?] at hh
      obtain ⟨hk, rfl⟩ := List.getElem?_eq_some_iff.1 hh
      exact key 0 hk

/-- Witness for amended C15: two rounds of acquire and submit, on slot 0 and then on
slot 1. -/
theorem submit_counters_increase_witness :
    (Executor.run [ExecutorEvent.acquire, ExecutorEvent.submit 0, ExecutorEvent.acquire,
        ExecutorEvent.submit 1]).2.Pairwise (fun h1 h2 => h1.submitId_ < h2.submitId_) ∧
      (Executor.run [ExecutorEvent.acquire, ExecutorEvent.submit 0, ExecutorEvent.acquire,
        ExecutorEvent.submit 1]).2 = [⟨0, 1⟩, ⟨1, 2⟩] :=
  ⟨((submit_counters_increase [ExecutorEvent.acquire, ExecutorEvent.submit 0,
      ExecutorEvent.acquire, ExecutorEvent.submit 1]).2.2.2 (by decide)).1, by decide⟩

/-! ## Render pass keys -/

theorem vectorEq_iff {α : Type} (eq : α → α → Bool) (heq : ∀ a b, eq a b = true ↔ a = b) :
    ∀ l1 l2 : List α, vectorEq eq l1 l2 = true ↔ l1 = l2 := by
  intro l1
  induction l1 with
  | nil =>
    intro l2
    cases l2 <;> simp [vectorEq]
  | cons a as ih =>
    intro l2
    cases l2 with
    | nil => simp [vectorEq]
    | cons b bs => simp [vectorEq, heq, ih]

theorem attachmentDescription_eq_iff (a b : VkAttachmentDescription) :
    a.eq b = true ↔ a = b := by
  cases a
  cases b
  simp [VkAttachmentDescription.eq, and_assoc]

theorem attachmentReference_eq_iff (a b : VkAttachmentReference) : a.eq b = true ↔ a = b := by
  cases a
  cases b
  simp [VkAttachmentReference.eq]

theorem builder_eq_iff (a b : VulkanRenderPassBuilder) : a.eq b = true ↔ a = b := by
  cases a
  cases b
  simp [VulkanRenderPassBuilder.eq, vectorEq_iff _ attachmentDescription_eq_iff,
    vectorEq_iff _ attachmentReference_eq_iff, attachmentReference_eq_iff, and_assoc]

theorem call_length (b b2 : VulkanRenderPassBuilder) (c : AddCall)
    (h : b.call c = some b2) : b2.attachments_.length = b.attachments_.length + 1 := by
  cases c <;>
    simp only [VulkanRenderPassBuilder.call, VulkanRenderPassBuilder.addColor,
      VulkanRenderPassBuilder.addColorResolve, VulkanRenderPassBuilder.addDepth,
      VulkanRenderPassBuilder.addDepthResolve, Option.some.injEq] at h
  · subst h; simp
  · subst h; simp
  · split at h
    · simp only [Option.some.injEq] at h
      subst h; simp
    · cases h
  · split at h
    · simp only [Option.some.injEq] at h
      subst h; simp
    · cases h

theorem call_wellFormed (b b2 : VulkanRenderPassBuilder) (c : AddCall)
    (hw : b.WellFormed) (h : b.call c = some b2) : b2.WellFormed := by
  obtain ⟨w1, w2, w3, w4, w5, w6⟩ := hw
  cases c <;>
    simp only [VulkanRenderPassBuilder.call, VulkanRenderPassBuilder.addColor,
      VulkanRenderPassBuilder.addColorResolve, VulkanRenderPassBuilder.addDepth,
      VulkanRenderPassBuilder.addDepthResolve, Option.some.injEq] at h
  · subst h
    refine ⟨?_, ?_, ?_, ?_, w5, w6⟩
    · intro r hr
      simp only [List.mem_append, List.mem_singleton, List.length_append,
        List.length_singleton] at hr ⊢
      rcases hr with hr | rfl
      · exact Nat.lt_succ_of_lt (w1 r hr)
      · exact Nat.lt_succ_self _
    · intro r hr
      simp only [List.length_append, List.length_singleton]
      exact Nat.lt_succ_of_lt (w2 r hr)
    · intro hl
      simp only [List.length_append, List.length_singleton]
      exact Nat.lt_succ_of_lt (w3 hl)
    · intro hl
      simp only [List.length_append, List.length_singleton]
      exact Nat.lt_succ_of_lt (w4 hl)
  · subst h
    refine ⟨?_, ?_, ?_, ?_, w5, w6⟩
    · intro r hr
      simp only [List.length_append, List.length_singleton]
      exact Nat.lt_succ_of_lt (w1 r hr)
    · intro r hr
      simp only [List.mem_append, List.mem_singleton, List.length_append,
        List.length_singleton] at hr ⊢
      rcases hr with hr | rfl
      · exact Nat.lt_succ_of_lt (w2 r hr)
      · exact Nat.lt_succ_self _
    · intro hl
      simp only [List.length_append, List.length_singleton]
      exact Nat.lt_succ_of_lt (w3 hl)
    · intro hl
      simp only [List.length_append, List.length_singleton]
      exact Nat.lt_succ_of_lt (w4 hl)
  · split at h
    · simp only [Option.some.injEq] at h
      subst h
      refine ⟨?_, ?_, ?_, ?_, ?_, w6⟩
      · intro r hr
        simp only [List.length_append, List.length_singleton]
        exact Nat.lt_succ_of_lt (w1 r hr)
      · intro r hr
        simp only [List.length_append, List.length_singleton]
        exact Nat.lt_succ_of_lt (w2 r hr)
      · intro _
        simp only [List.length_append, List.length_singleton]
        exact Nat.lt_succ_self _
      · intro hl
        simp only [List.length_append, List.length_singleton]
        exact Nat.lt_succ_of_lt (w4 hl)
      · intro hl
        simp only [VK_IMAGE_LAYOUT_DEPTH_STENCIL_ATTACHMENT_OPTIMAL,
          VK_IMAGE_LAYOUT_UNDEFINED] at hl
        omega
    · cases h
  · split at h
    · simp only [Option.some.injEq] at h
      subst h
      refine ⟨?_, ?_, ?_, ?_, w5, ?_⟩
      · intro r hr
        simp only [List.length_append, List.length_singleton]
        exact Nat.lt_succ_of_lt (w1 r hr)
      · intro r hr
        simp only [List.length_append, List.length_singleton]
        exact Nat.lt_succ_of_lt (w2 r hr)
      · intro hl
        simp only [List.length_append, List.length_singleton]
        exact Nat.lt_succ_of_lt (w3 hl)
      · intro _
        simp only [List.length_append, List.length_singleton]
        exact Nat.lt_succ_self _
      · intro hl
        simp only [VK_IMAGE_LAYOUT_DEPTH_STENCIL_ATTACHMENT_OPTIMAL,
          VK_IMAGE_LAYOUT_UNDEFINED] at hl
        omega
    · cases h

theorem call_fields (b b2 : VulkanRenderPassBuilder) (c : AddCall) (h : b.call c = some b2) :
    b2.attachments_ = b.attachments_ ++ [c.description] ∧
    (c.kind = AttachmentKind.color →
      b2.refsColor_ = b.refsColor_ ++
        [⟨b.attachments_.length, VK_IMAGE_LAYOUT_COLOR_ATTACHMENT_OPTIMAL⟩]) ∧
    (c.kind ≠ AttachmentKind.color → b2.refsColor_ = b.refsColor_) ∧
    (c.kind = AttachmentKind.colorResolve →
      b2.refsColorResolve_ = b.refsColorResolve_ ++
        [⟨b.attachments_.length, VK_IMAGE_LAYOUT_COLOR_ATTACHMENT_OPTIMAL⟩]) ∧
    (c.kind ≠ AttachmentKind.colorResolve → b2.refsColorResolve_ = b.refsColorResolve_) ∧
    (c.kind = AttachmentKind.depth →
      b.refDepth_.layout = VK_IMAGE_LAYOUT_UNDEFINED ∧
      b2.refDepth_ =
        ⟨b.attachments_.length, VK_IMAGE_LAYOUT_DEPTH_STENCIL_ATTACHMENT_OPTIMAL⟩) ∧
    (c.kind ≠ AttachmentKind.depth → b2.refDepth_ = b.refDepth_) ∧
    (c.kind = AttachmentKind.depthResolve →
      b.refDepthResolve_.layout = VK_IMAGE_LAYOUT_UNDEFINED ∧
      b2.refDepthResolve_ =
        ⟨b.attachments_.length, VK_IMAGE_LAYOUT_DEPTH_STENCIL_ATTACHMENT_OPTIMAL⟩) ∧
    (c.kind ≠ AttachmentKind.depthResolve → b2.refDepthResolve_ = b.refDepthResolve_) := by
  cases c <;>
    simp only [VulkanRenderPassBuilder.call, VulkanRenderPassBuilder.addColor,
      VulkanRenderPassBuilder.addColorResolve, VulkanRenderPassBuilder.addDepth,
      VulkanRenderPassBuilder.addDepthResolve, Option.some.injEq] at h
  · subst h
    simp [AddCall.kind, AddCall.description]
  · subst h
    simp [AddCall.kind, AddCall.description]
  · split at h
    · rename_i hl
      simp only [Option.some.injEq] at h
      subst h
      simp [AddCall.kind, AddCall.description, hl]
    · cases h
  · split at h
    · rename_i hl
      simp only [Option.some.injEq] at h
      subst h
      simp [AddCall.kind, AddCall.description, hl]
    · cases h

theorem addCall_eq_of_kind_description (c1 c2 : AddCall) (hk : c1.kind = c2.kind)
    (hd : c1.description = c2.description) : c1 = c2 := by
  cases c1 <;> cases c2 <;> simp [AddCall.kind] at hk <;>
    simp only [AddCall.description, VkAttachmentDescription.mk.injEq] at hd <;>
    simp [hd]

theorem call_kind_unique (b1 b2 b : VulkanRenderPassBuilder) (c1 c2 : AddCall)
    (hw2 : b2.WellFormed)
    (h1 : b1.call c1 = some b) (h2 : b2.call c2 = some b) : c1.kind = c2.kind := by
  obtain ⟨a1, p1, q1, r1, s1, t1, u1, v1, x1⟩ := call_fields b1 b c1 h1
  obtain ⟨a2, p2, q2, r2, s2, t2, u2, v2, x2⟩ := call_fields b2 b c2 h2
  have hlen : b1.attachments_.length = b2.attachments_.length := by
    have := call_length b1 b c1 h1
    have := call_length b2 b c2 h2
    omega
  have hD : VK_IMAGE_LAYOUT_DEPTH_STENCIL_ATTACHMENT_OPTIMAL ≠ VK_IMAGE_LAYOUT_UNDEFINED := by
    decide
  -- which reference of `b` points at the last attachment tells the kind of the call
  have color_only : ∀ (ba bb : VulkanRenderPassBuilder) (ca cb : AddCall),
      ba.attachments_.length = bb.attachments_.length → bb.WellFormed →
      (ca.kind = AttachmentKind.color → b.refsColor_ = ba.refsColor_ ++
        [⟨ba.attachments_.length, VK_IMAGE_LAYOUT_COLOR_ATTACHMENT_OPTIMAL⟩]) →
      (cb.kind ≠ AttachmentKind.color → b.refsColor_ = bb.refsColor_) →
      ca.kind = AttachmentKind.color → cb.kind = AttachmentKind.color := by
    intro ba bb ca cb hl hwb ha hb hka
    by_contra hkb
    have e := (ha hka).symm.trans (hb hkb)
    have := hwb.1 ⟨ba.attachments_.length, VK_IMAGE_LAYOUT_COLOR_ATTACHMENT_OPTIMAL⟩
      (by rw [← e]; simp)
    simp only at this
    omega
  have resolve_only : ∀ (ba bb : VulkanRenderPassBuilder) (ca cb : AddCall),
      ba.attachments_.length = bb.attachments_.length → bb.WellFormed →
      (ca.kind = AttachmentKind.colorResolve → b.refsColorResolve_ = ba.refsColorResolve_ ++
        [⟨ba.attachments_.length, VK_IMAGE_LAYOUT_COLOR_ATTACHMENT_OPTIMAL⟩]) →
      (cb.kind ≠ AttachmentKind.colorResolve → b.refsColorResolve_ = bb.refsColorResolve_) →
      ca.kind = AttachmentKind.colorResolve → cb.kind = AttachmentKind.colorResolve := by
    intro ba bb ca cb hl hwb ha hb hka
    by_contra hkb
    have e := (ha hka).symm.trans (hb hkb)
    have := hwb.2.1 ⟨ba.attachments_.length, VK_IMAGE_LAYOUT_COLOR_ATTACHMENT_OPTIMAL⟩
      (by rw [← e]; simp)
    simp only at this
    omega
  have depth_only : ∀ (ba bb : VulkanRenderPassBuilder) (ca cb : AddCall),
      ba.attachments_.length = bb.attachments_.length → bb.WellFormed →
      (ca.kind = AttachmentKind.depth → ba.refDepth_.layout = VK_IMAGE_LAYOUT_UNDEFINED ∧
        b.refDepth_ =
          ⟨ba.attachments_.length, VK_IMAGE_LAYOUT_DEPTH_STENCIL_ATTACHMENT_OPTIMAL⟩) →
      (cb.kind ≠ AttachmentKind.depth → b.refDepth_ = bb.refDepth_) →
      ca.kind = AttachmentKind.depth → cb.kind = AttachmentKind.depth := by
    intro ba bb ca cb hl hwb ha hb hka
    by_contra hkb
    have e := (ha hka).2.symm.trans (hb hkb)
    have := hwb.2.2.1 (by rw [← e]; exact hD)
    rw [← e] at this
    simp only at this
    omega
  have depthResolve_only : ∀ (ba bb : VulkanRenderPassBuilder) (ca cb : AddCall),
      ba.attachments_.length = bb.attachments_.length → bb.WellFormed →
      (ca.kind = AttachmentKind.depthResolve →
        ba.refDepthResolve_.layout = VK_IMAGE_LAYOUT_UNDEFINED ∧
        b.refDepthResolve_ =
          ⟨ba.attachments_.length, VK_IMAGE_LAYOUT_DEPTH_STENCIL_ATTACHMENT_OPTIMAL⟩) →
      (cb.kind ≠ AttachmentKind.depthResolve → b.refDepthResolve_ = bb.refDepthResolve_) →
      ca.kind = AttachmentKind.depthResolve → cb.kind = AttachmentKind.depthResolve := by
    intro ba bb ca cb hl hwb ha hb hka
    by_contra hkb
    have e := (ha hka).2.symm.trans (hb hkb)
    have := hwb.2.2.2.1 (by rw [← e]; exact hD)
    rw [← e] at this
    simp only at this
    omega
  cases hk : c1.kind
  · exact (color_only b1 b2 c1 c2 hlen hw2 p1 q2 hk).symm
  · exact (resolve_only b1 b2 c1 c2 hlen hw2 r1 s2 hk).symm
  · exact (depth_only b1 b2 c1 c2 hlen hw2 t1 u2 hk).symm
  · exact (depthResolve_only b1 b2 c1 c2 hlen hw2 v1 x2 hk).symm

theorem call_inj (b1 b2 b : VulkanRenderPassBuilder) (c1 c2 : AddCall)
    (hw1 : b1.WellFormed) (hw2 : b2.WellFormed)
    (h1 : b1.call c1 = some b) (h2 : b2.call c2 = some b) : b1 = b2 ∧ c1 = c2 := by
  have hkind := call_kind_unique b1 b2 b c1 c2 hw2 h1 h2
  obtain ⟨a1, p1, q1, r1, s1, t1, u1, v1, x1⟩ := call_fields b1 b c1 h1
  obtain ⟨a2, p2, q2, r2, s2, t2, u2, v2, x2⟩ := call_fields b2 b c2 h2
  rw [← hkind] at p2 q2 r2 s2 t2 u2 v2 x2
  obtain ⟨hatt, hdesc⟩ := List.append_inj' (a1.symm.trans a2) rfl
  have hc : c1 = c2 :=
    addCall_eq_of_kind_description c1 c2 hkind (by simpa using hdesc)
  have hcolor : b1.refsColor_ = b2.refsColor_ := by
    by_cases hk : c1.kind = AttachmentKind.color
    · exact (List.append_inj' ((p1 hk).symm.trans (p2 hk)) rfl).1
    · exact (q1 hk).symm.trans (q2 hk)
  have hresolve : b1.refsColorResolve_ = b2.refsColorResolve_ := by
    by_cases hk : c1.kind = AttachmentKind.colorResolve
    · exact (List.append_inj' ((r1 hk).symm.trans (r2 hk)) rfl).1
    · exact (s1 hk).symm.trans (s2 hk)
  have hdepth : b1.refDepth_ = b2.refDepth_ := by
    by_cases hk : c1.kind = AttachmentKind.depth
    · rw [hw1.2.2.2.2.1 (t1 hk).1, hw2.2.2.2.2.1 (t2 hk).1]
    · exact (u1 hk).symm.trans (u2 hk)
  have hdepthResolve : b1.refDepthResolve_ = b2.refDepthResolve_ := by
    by_cases hk : c1.kind = AttachmentKind.depthResolve
    · rw [hw1.2.2.2.2.2 (v1 hk).1, hw2.2.2.2.2.2 (v2 hk).1]
    · exact (x1 hk).symm.trans (x2 hk)
  refine ⟨?_, hc⟩
  cases b1
  cases b2
  simp only [VulkanRenderPassBuilder.mk.injEq]
  exact ⟨hatt, hcolor, hresolve, hdepth, hdepthResolve⟩

theorem buildFrom_snoc (calls : List AddCall) :
    ∀ (b : VulkanRenderPassBuilder) (c : AddCall),
      VulkanRenderPassBuilder.buildFrom b (calls ++ [c]) =
        match VulkanRenderPassBuilder.buildFrom b calls with
        | none => none
        | some b2 => b2.call c := by
  induction calls with
  | nil =>
    intro b c
    simp only [List.nil_append, VulkanRenderPassBuilder.buildFrom]
    cases b.call c <;> rfl
  | cons c0 rest ih =>
    intro b c
    simp only [List.cons_append, VulkanRenderPassBuilder.buildFrom]
    cases b.call c0 with
    | none => rfl
    | some b2 => exact ih b2 c

theorem buildFrom_wellFormed (calls : List AddCall) :
    ∀ b b2 : VulkanRenderPassBuilder, b.WellFormed →
      VulkanRenderPassBuilder.buildFrom b calls = some b2 →
      b2.WellFormed ∧ b2.attachments_.length = b.attachments_.length + calls.length := by
  induction calls with
  | nil =>
    intro b b2 hw h
    simp only [VulkanRenderPassBuilder.buildFrom, Option.some.injEq] at h
    subst h
    exact ⟨hw, rfl⟩
  | cons c rest ih =>
    intro b b2 hw h
    simp only [VulkanRenderPassBuilder.buildFrom] at h
    cases hc : b.call c with
    | none => rw [hc] at h; cases h
    | some b1 =>
      rw [hc] at h
      obtain ⟨hw2, hl⟩ := ih b1 b2 (call_wellFormed b b1 c hw hc) h
      refine ⟨hw2, ?_⟩
      rw [hl, call_length b b1 c hc, List.length_cons]
      omega

theorem default_wellFormed : ({} : VulkanRenderPassBuilder).WellFormed := by
  refine ⟨?_, ?_, ?_, ?_, ?_, ?_⟩
  · intro r hr; cases hr
  · intro r hr; cases hr
  · intro h; exact absurd rfl h
  · intro h; exact absurd rfl h
  · intro _; rfl
  · intro _; rfl

theorem build_inj (calls1 : List AddCall) :
    ∀ (calls2 : List AddCall) (b : VulkanRenderPassBuilder),
      VulkanRenderPassBuilder.build calls1 = some b →
      VulkanRenderPassBuilder.build calls2 = some b → calls1 = calls2 := by
  induction calls1 using List.reverseRecOn with
  | nil =>
    intro calls2 b h1 h2
    have l1 := (buildFrom_wellFormed [] {} b default_wellFormed h1).2
    have l2 := (buildFrom_wellFormed calls2 {} b default_wellFormed h2).2
    rw [l1] at l2
    simp only [List.length_nil, Nat.add_zero] at l2
    have : calls2.length = 0 := by omega
    exact (List.length_eq_zero.1 this).symm
  | append_singleton rest1 c1 ih =>
    intro calls2 b h1 h2
    induction calls2 using List.reverseRecOn with
    | nil =>
      have l1 := (buildFrom_wellFormed (rest1 ++ [c1]) {} b default_wellFormed h1).2
      have l2 := (buildFrom_wellFormed [] {} b default_wellFormed h2).2
      rw [l1] at l2
      simp at l2
    | append_singleton rest2 c2 _ =>
      simp only [VulkanRenderPassBuilder.build, buildFrom_snoc] at h1 h2
      cases hb1 : VulkanRenderPassBuilder.buildFrom {} rest1 with
      | none => rw [hb1] at h1; cases h1
      | some b1 =>
        cases hb2 : VulkanRenderPassBuilder.buildFrom {} rest2 with
        | none => rw [hb2] at h2; cases h2
        | some b2 =>
          rw [hb1] at h1
          rw [hb2] at h2
          simp only at h1 h2
          have hw1 := (buildFrom_wellFormed rest1 {} b1 default_wellFormed hb1).1
          have hw2 := (buildFrom_wellFormed rest2 {} b2 default_wellFormed hb2).1
          obtain ⟨hb, hc⟩ := call_inj b1 b2 b c1 c2 hw1 hw2 h1 h2
          subst hb
          subst hc
          rw [ih rest2 b1 hb1 hb2]

theorem hashFunction_congr (H : HashDecl) (a b : VulkanRenderPassBuilder)
    (h : a.eq b = true) :
    VulkanRenderPassBuilder.HashFunction H a = VulkanRenderPassBuilder.HashFunction H b := by
  rw [(builder_eq_iff a b).1 h]

/-- C16: render pass keys are structural. Two builders built by the same sequence of
`addColor` / `addColorResolve` / `addDepth` / `addDepthResolve` calls with identical
arguments compare equal under `operator==` and have the same hash, and builders that
compare equal always hash identically; two builders built by call sequences that differ
(in a format, load op, store op, initial or final layout or sample count of some call,
or in the number or the kind of the calls) compare unequal. -/
theorem renderPassBuilder_structural (H : HashDecl) (calls1 calls2 : List AddCall)
    (b1 b2 : VulkanRenderPassBuilder)
    (h1 : VulkanRenderPassBuilder.build calls1 = some b1)
    (h2 : VulkanRenderPassBuilder.build calls2 = some b2) :
    (calls1 = calls2 →
      b1.eq b2 = true ∧
        VulkanRenderPassBuilder.HashFunction H b1 =
          VulkanRenderPassBuilder.HashFunction H b2) ∧
    (b1.eq b2 = true →
      VulkanRenderPassBuilder.HashFunction H b1 =
        VulkanRenderPassBuilder.HashFunction H b2) ∧
    (calls1 ≠ calls2 → b1.eq b2 = false) := by
  refine ⟨?_, hashFunction_congr H b1 b2, ?_⟩
  · intro hc
    subst hc
    rw [h1] at h2
    simp only [Option.some.injEq] at h2
    subst h2
    exact ⟨(builder_eq_iff b1 b1).2 rfl, rfl⟩
  · intro hne
    cases hb : b1.eq b2
    · rfl
    · exfalso
      have := (builder_eq_iff b1 b2).1 hb
      subst this
      exact hne (build_inj calls1 calls2 b1 h1 h2)

/-- Witness for C16: a colour attachment and a colour resolve attachment with the same
arguments give builders that compare unequal. -/
theorem renderPassBuilder_structural_witness :
    VulkanRenderPassBuilder.eq
        (VulkanRenderPassBuilder.addColor {} VkFormat.VK_FORMAT_R8G8B8A8_UNORM 1 0 0 2 1)
        (VulkanRenderPassBuilder.addColorResolve {} VkFormat.VK_FORMAT_R8G8B8A8_UNORM 1 0 0 2) =
      false :=
  (renderPassBuilder_structural xorHash
    [AddCall.addColor VkFormat.VK_FORMAT_R8G8B8A8_UNORM 1 0 0 2 1]
    [AddCall.addColorResolve VkFormat.VK_FORMAT_R8G8B8A8_UNORM 1 0 0 2]
    _ _ rfl rfl).2.2 (by decide)

/-! ## Pools enumerated from a physical device -/

theorem setInsert_nodup (less : VulkanQueueDescriptor → VulkanQueueDescriptor → Bool)
    (d : VulkanQueueDescriptor) (s : List VulkanQueueDescriptor) (hs : s.Nodup) :
    (setInsert less d s).Nodup := by
  unfold setInsert
  split
  · exact hs
  · rename_i hd
    have hperm : ((s.takeWhile fun x => !less d x) ++ d :: s.dropWhile fun x => !less d x).Perm
        (d :: s) := by
      have := @List.perm_middle _ d (s.takeWhile fun x => !less d x)
        (s.dropWhile fun x => !less d x)
      rwa [List.takeWhile_append_dropWhile] at this
    rw [hperm.nodup_iff]
    exact List.nodup_cons.2 ⟨hd, hs⟩

theorem foldl_mem_iff {α β : Type} (g : List α → β → List α) (P : β → α → Prop)
    (hg : ∀ acc x d, d ∈ g acc x ↔ d ∈ acc ∨ P x d) (l : List β) :
    ∀ (acc : List α) (d : α), d ∈ l.foldl g acc ↔ d ∈ acc ∨ ∃ x ∈ l, P x d := by
  induction l with
  | nil => intro acc d; simp
  | cons x rest ih =>
    intro acc d
    rw [List.foldl_cons, ih, hg]
    simp only [List.mem_cons, exists_eq_or_imp]
    tauto

theorem foldl_nodup {α β : Type} (g : List α → β → List α)
    (hg : ∀ acc x, acc.Nodup → (g acc x).Nodup) (l : List β) :
    ∀ acc : List α, acc.Nodup → (l.foldl g acc).Nodup := by
  induction l with
  | nil => intro acc h; exact h
  | cons x rest ih =>
    intro acc h
    rw [List.foldl_cons]
    exact ih _ (hg acc x h)

theorem mem_enumerateQueues (D : QueueDescriptorDecl)
    (properties : List VkQueueFamilyProperties) (d : VulkanQueueDescriptor) :
    d ∈ enumerateQueues D properties ↔
      ∃ p, properties[d.familyIndex]? = some p ∧ d.queueIndex < p.queueCount ∧
        d.queueFlags = p.queueFlags := by
  unfold enumerateQueues
  have inner : ∀ (acc : List VulkanQueueDescriptor) (ip : Nat × VkQueueFamilyProperties)
      (x : VulkanQueueDescriptor),
      x ∈ (List.range ip.2.queueCount).foldl
          (fun descriptors j => setInsert D.less ⟨j, ip.1, ip.2.queueFlags⟩ descriptors) acc ↔
        x ∈ acc ∨ (x.familyIndex = ip.1 ∧ x.queueIndex < ip.2.queueCount ∧
          x.queueFlags = ip.2.queueFlags) := by
    intro acc ip x
    rw [foldl_mem_iff _ (fun j y => y = ⟨j, ip.1, ip.2.queueFlags⟩)
      (fun acc j y => by rw [mem_setInsert]; exact or_comm)]
    constructor
    · rintro (h | ⟨j, hj, rfl⟩)
      · exact Or.inl h
      · exact Or.inr ⟨rfl, List.mem_range.1 hj, rfl⟩
    · rintro (h | ⟨h1, h2, h3⟩)
      · exact Or.inl h
      · refine Or.inr ⟨x.queueIndex, List.mem_range.2 h2, ?_⟩
        cases x
        simp_all
  rw [foldl_mem_iff _ (fun ip x => x.familyIndex = ip.1 ∧ x.queueIndex < ip.2.queueCount ∧
    x.queueFlags = ip.2.queueFlags) inner]
  simp only [List.not_mem_nil, false_or]
  constructor
  · rintro ⟨⟨i, p⟩, hmem, h1, h2, h3⟩
    simp only at h1 h2 h3
    rw [List.mk_mem_enum_iff_getElem?] at hmem
    exact ⟨p, h1 ▸ hmem, h2, h3⟩
  · rintro ⟨p, hp, h2, h3⟩
    exact ⟨(d.familyIndex, p), List.mk_mem_enum_iff_getElem?.2 hp, rfl, h2, h3⟩

theorem enumerateQueues_nodup (D : QueueDescriptorDecl)
    (properties : List VkQueueFamilyProperties) : (enumerateQueues D properties).Nodup := by
  unfold enumerateQueues
  apply foldl_nodup
  · intro acc ip hacc
    apply foldl_nodup
    · intro acc2 j h
      exact setInsert_nodup _ _ _ h
    · exact hacc
  · exact List.nodup_nil

theorem reserveQueue_reserved_nodup (D : QueueDescriptorDecl) (pool : VulkanQueuePool)
    (d : VulkanQueueDescriptor) (h : pool.reservedDescriptors_.Nodup) :
    (reserveQueue D pool d).reservedDescriptors_.Nodup := by
  by_cases hd : d ∈ pool.availableDescriptors_
  · rw [reserveQueue_of_mem D pool d hd]
    exact setInsert_nodup _ _ _ h
  · rwa [reserveQueue_of_not_mem D pool d hd]

theorem run_reserved_nodup (D : QueueDescriptorDecl) (calls : List PoolCall) :
    ∀ pool : VulkanQueuePool, pool.reservedDescriptors_.Nodup →
      (run D pool calls).reservedDescriptors_.Nodup := by
  induction calls with
  | nil => intro pool h; exact h
  | cons c rest ih =>
    intro pool h
    rw [run_cons]
    apply ih
    cases c with
    | findQueueDescriptor flags => exact h
    | reserveQueue d => exact reserveQueue_reserved_nodup D pool d h
    | getQueueCreationInfos => exact h

theorem family_count_le (D : QueueDescriptorDecl) (properties : List VkQueueFamilyProperties)
    (l : List VulkanQueueDescriptor) (hnd : l.Nodup)
    (hsub : ∀ d ∈ l, d ∈ enumerateQueues D properties) (f : Nat)
    (p : VkQueueFamilyProperties) (hp : properties[f]? = some p) :
    l.countP (fun d => d.familyIndex = f) ≤ p.queueCount := by
  rw [List.countP_eq_length_filter]
  have hfam : ∀ d ∈ l.filter (fun d => d.familyIndex = f),
      d.familyIndex = f ∧ d.queueIndex < p.queueCount ∧ d.queueFlags = p.queueFlags := by
    intro d hd
    rw [List.mem_filter] at hd
    have hf : d.familyIndex = f := by simpa using hd.2
    obtain ⟨q, hq, h2, h3⟩ := (mem_enumerateQueues D properties d).1 (hsub d hd.1)
    rw [hf, hp] at hq
    cases hq
    exact ⟨hf, h2, h3⟩
  have hmap : ((l.filter fun d => d.familyIndex = f).map fun d => d.queueIndex).Nodup := by
    apply List.Nodup.map_on _ (hnd.filter _)
    intro x hx y hy hxy
    obtain ⟨x1, _, x3⟩ := hfam x hx
    obtain ⟨y1, _, y3⟩ := hfam y hy
    cases x
    cases y
    simp_all
  have hsubset : ((l.filter fun d => d.familyIndex = f).map fun d => d.queueIndex) ⊆
      List.range p.queueCount := by
    intro j hj
    obtain ⟨d, hd, rfl⟩ := List.mem_map.1 hj
    exact List.mem_range.2 (hfam d hd).2.1
  have := (hmap.subperm hsubset).length_le
  simpa using this

/-- On a pool constructed from a physical device whose families report `uint32_t` queue
counts, after any sequence of calls every family has fewer than `2^32` reserved
descriptors: the size condition of the grouping theorem always holds there. -/
theorem reserved_family_count_lt (D : QueueDescriptorDecl)
    (properties : List VkQueueFamilyProperties)
    (hcount : ∀ p ∈ properties, p.queueCount < u32) (calls : List PoolCall) (f : Nat) :
    (run D (VulkanQueuePool.ofPhysicalDevice D properties) calls).reservedDescriptors_.countP
      (fun d => d.familyIndex = f) < u32 := by
  have hinv := run_inv D (enumerateQueues D properties) calls _
    (ofAvailable_inv _ (enumerateQueues_nodup D properties))
  have hnd := run_reserved_nodup D calls (VulkanQueuePool.ofPhysicalDevice D properties)
    List.nodup_nil
  have hsub : ∀ d ∈ (run D (VulkanQueuePool.ofPhysicalDevice D properties)
      calls).reservedDescriptors_, d ∈ enumerateQueues D properties :=
    fun d hd => (hinv.2.2 d).1 (Or.inr hd)
  cases hp : properties[f]? with
  | none =>
    have : (run D (VulkanQueuePool.ofPhysicalDevice D properties)
        calls).reservedDescriptors_.countP (fun d => d.familyIndex = f) = 0 := by
      rw [List.countP_eq_zero]
      intro d hd
      obtain ⟨q, hq, _, _⟩ := (mem_enumerateQueues D properties d).1 (hsub d hd)
      intro hf
      have hf2 : d.familyIndex = f := by simpa using hf
      rw [hf2, hp] at hq
      cases hq
    rw [this]
    simp [u32]
  | some p =>
    exact lt_of_le_of_lt (family_count_le D properties _ hnd hsub f p hp)
      (hcount p (List.mem_iff_getElem?.2 ⟨f, hp⟩))

end igl.vulkan
